import Mathlib

/-!
Simple garage door opener: the door-motion engine.

A shallow embedding of `index.js` (the `SimpleGarageDoorOpener` accessory).

* The accessory object and the pieces of its environment that its methods touch
  (the two characteristic values, the timers of the event loop, the wall clock and the
  pin driver) are one record, `Engine`.
* Every method of the class is a function on `Engine` named as in the source.
  A method that can be left by an exception of the pin driver returns
  `Except Engine Engine`: `.ok s` is a normal return in state `s`, `.error s` an
  exception thrown in state `s` (the mutations done before the throw are kept).
* Numbers are rationals: the configured durations are JavaScript numbers, the elapsed
  ratio is computed by plain division. Rounding of doubles is not modelled.
  `Date` values are integer milliseconds.
* The three arrow functions handed to `setTimeout` capture nothing but `this`; they are
  the three constructors of `Callback`.
* `service.setCharacteristic(c, v)` is a write of the value of `c`. (The only write of the
  target made by the accessory is the one in `simulateGarageDoorClosing`, right after the
  door was set `CLOSING`; a framework that routes it through the `set` handler reaches
  the `default:` arm, which changes nothing.)
* The constructor is `construct`, on the keys of the configuration that the engine reads;
  the validation library it calls is a parameter (`Inspector`).
* Logging is not modelled.
-/

namespace SimpleGarageDoorOpener

/-- Values of the framework characteristic `CurrentDoorState`. The source only ever names
the first four; `STOPPED` is the fifth value of the framework's enumeration and falls in
the `default:` arm of both `switch` statements. -/
inductive CurrentDoorState where
  | OPEN | CLOSED | OPENING | CLOSING | STOPPED
  deriving DecidableEq, Repr

/-- Values of the framework characteristic `TargetDoorState`. -/
inductive TargetDoorState where
  | OPEN | CLOSED
  deriving DecidableEq, Repr

/-- The two pin operations an action may name (`rpio.write`, `rpio.mode`). -/
inductive ActionType where
  | write | mode
  deriving DecidableEq, Repr

/-- One entry of `GPIOOpenActions`: `action.type` and `action.value`. -/
structure Action where
  type : ActionType
  value : Nat
  deriving DecidableEq, Repr

/-- One executed pin operation `action.type(this.doorSwitchPin, action.value)`. -/
structure PinCall where
  type : ActionType
  pin : Nat
  value : Nat
  deriving DecidableEq, Repr

/-- The three closures passed to `setTimeout`:
`openingDone` is the outer arrow function of `simulateGarageDoorOpening` (lines 285-308),
`autoClose` the inner one (lines 296-305),
`closingDone` the arrow function of `simulateGarageDoorClosing` (lines 315-321). -/
inductive Callback where
  | openingDone | autoClose | closingDone
  deriving DecidableEq, Repr

/-- A live timer of the event loop: the handle `setTimeout` returned, the closure, the
delay in milliseconds that was passed, and the clock reading at the `setTimeout` call. -/
structure Timer where
  handle : Nat
  callback : Callback
  delay : ℚ
  armedAt : ℚ
  deriving DecidableEq

/-- The instant (milliseconds) at which a timer becomes due. -/
def Timer.due (t : Timer) : ℚ := t.armedAt + t.delay

/-- The configuration fields the constructor stores on `this` (lines 36-49). -/
structure Config where
  simulateTimeOpening : ℚ
  autoClosingDelay : ℚ
  simulateTimeClosing : ℚ
  autoClosingMode : String
  doorSwitchPin : Nat
  GPIOActionDelay : ℚ
  GPIOOpenActions : List Action
  deriving DecidableEq

/-- The accessory and its environment.

* `cfg`, `currentTimeOuts`, `lastOpened`, `lastClosed`: fields of `this`
  (`undefined` is `none`);
* `targetDoorState`, `currentDoorState`: the `.value` of the two characteristics;
* `timers`: the timers of the event loop that are scheduled, not fired and not cleared;
  `nextHandle`: the next fresh handle;
* `clock`: the wall clock in milliseconds (`new Date()` reads its floor, `rpio.sleep`
  advances it);
* `pinCalls`: the pin operations executed so far, `pinAttempts`: the pin operations
  attempted so far (executed or failed), `pulses`: the number of calls of
  `executeGPIOActions` so far. -/
structure Engine where
  cfg : Config
  currentTimeOuts : List Nat
  lastOpened : Option Int
  lastClosed : Option Int
  targetDoorState : TargetDoorState
  currentDoorState : CurrentDoorState
  timers : List Timer
  nextHandle : Nat
  clock : ℚ
  pinCalls : List PinCall
  pinAttempts : Nat
  pulses : Nat
  deriving DecidableEq

/-- The state the constructor leaves (lines 34, 58-59, 152-153): no tracked handle, both
timestamps unset, target and current `CLOSED`; nothing scheduled, no pin operation yet. -/
def init (cfg : Config) : Engine :=
  { cfg := cfg
    currentTimeOuts := []
    lastOpened := none
    lastClosed := none
    targetDoorState := .CLOSED
    currentDoorState := .CLOSED
    timers := []
    nextHandle := 0
    clock := 0
    pinCalls := []
    pinAttempts := 0
    pulses := 0 }

/-! ## Environment primitives -/

/-- The time value of `new Date()`: the clock in whole milliseconds. -/
def newDate (s : Engine) : Int := ⌊s.clock⌋

/-- The seconds field of a time value, `Date.prototype.getSeconds` (`SecFromTime`), for a
zone offset of whole minutes. -/
def getSeconds (t : Int) : Int := (t / 1000) % 60

/-- The conversion `ToIntegerOrInfinity` of ECMAScript on a finite number: truncation
towards zero. -/
def toIntegerOrInfinity (x : ℚ) : Int := if 0 ≤ x then ⌊x⌋ else ⌈x⌉

/-- The time value after `Date.prototype.setSeconds(sec)`: `MakeTime` keeps hour, minute and
millisecond and replaces the seconds field by `ToIntegerOrInfinity(sec)`. -/
def setSeconds (t : Int) (sec : ℚ) : Int :=
  t - getSeconds t * 1000 + toIntegerOrInfinity sec * 1000

/-- The call `setTimeout(cb, delay)`: a fresh handle and one more live timer. -/
def setTimeout (cb : Callback) (delay : ℚ) (s : Engine) : Nat × Engine :=
  (s.nextHandle,
   { s with
     timers := s.timers ++ [{ handle := s.nextHandle, callback := cb, delay := delay,
                              armedAt := s.clock }]
     nextHandle := s.nextHandle + 1 })

/-- The call `clearTimeout(h)`: the timer with that handle, if still live, is dropped. -/
def clearTimeout (s : Engine) (h : Nat) : Engine :=
  { s with timers := s.timers.filter (fun t => t.handle != h) }

/-- One iteration of the loop of `executeGPIOActions` (lines 204-205): the pin operation,
then `rpio.sleep(this.GPIOActionDelay)`. The driver is the oracle `hw`: `hw n` tells
whether the `n`-th pin operation attempted since construction throws. -/
def callAction (hw : Nat → Bool) (s : Engine) (a : Action) : Except Engine Engine :=
  if hw s.pinAttempts then
    .error { s with pinAttempts := s.pinAttempts + 1 }
  else
    .ok { s with
          pinAttempts := s.pinAttempts + 1
          pinCalls := s.pinCalls ++ [{ type := a.type, pin := s.cfg.doorSwitchPin,
                                       value := a.value }]
          clock := s.clock + s.cfg.GPIOActionDelay * 1000 }

/-! ## Methods of the class -/

/-- Source `executeGPIOActions` (lines 202-207). -/
def executeGPIOActions (hw : Nat → Bool) (s : Engine) : Except Engine Engine :=
  s.cfg.GPIOOpenActions.foldlM (callAction hw) { s with pulses := s.pulses + 1 }

/-- Source `resetActionsQueue` (lines 209-213): `clearTimeout` on every tracked handle;
the array itself is left as it is. -/
def resetActionsQueue (s : Engine) : Engine :=
  s.currentTimeOuts.foldl clearTimeout s

/-- Source `simulateGarageDoorOpening` (lines 282-309), the synchronous part. -/
def simulateGarageDoorOpening (openingTimeRemaining : ℚ) (s : Engine) : Engine :=
  let s1 := { s with currentDoorState := CurrentDoorState.OPENING }
  let r := setTimeout .openingDone (openingTimeRemaining * 1000) s1
  { r.2 with currentTimeOuts := r.2.currentTimeOuts ++ [r.1] }

/-- Source `simulateGarageDoorClosing` (lines 311-322), the synchronous part. -/
def simulateGarageDoorClosing (closingTimeRemaining : ℚ) (s : Engine) : Engine :=
  let s1 := { s with currentDoorState := CurrentDoorState.CLOSING
                     targetDoorState := TargetDoorState.CLOSED }
  let r := setTimeout .closingDone (closingTimeRemaining * 1000) s1
  { r.2 with currentTimeOuts := r.2.currentTimeOuts ++ [r.1] }

/-- Lines 221-238 of `openGarageDoor`: the value of `openingTimeRemaining` and of
`this.lastOpened` after the `if (force)` block, for `this.lastOpened` stamped `now`. -/
def openingCorrection (cfg : Config) (force : Bool) (now : Int) (lastClosed : Option Int) :
    ℚ × Int :=
  if force then
    match lastClosed with
    | some lc =>
      let secsFromLastClose : ℚ := ((now - lc : Int) : ℚ) / 1000
      if secsFromLastClose < cfg.simulateTimeClosing then
        let openingTimeRemaining :=
          (secsFromLastClose / cfg.simulateTimeClosing) * cfg.simulateTimeOpening
        (openingTimeRemaining, setSeconds now ((getSeconds now : ℚ) - openingTimeRemaining))
      else (cfg.simulateTimeOpening, now)
    | none => (cfg.simulateTimeOpening, now)
  else (cfg.simulateTimeOpening, now)

/-- Lines 254-271 of `closeGarageDoor`: the value of `closingTimeRemaining` and of
`this.lastClosed` after the `if (force)` block, for `this.lastClosed` stamped `now`. -/
def closingCorrection (cfg : Config) (force : Bool) (now : Int) (lastOpened : Option Int) :
    ℚ × Int :=
  if force then
    match lastOpened with
    | some lo =>
      let secsFromLastOpen : ℚ := ((now - lo : Int) : ℚ) / 1000
      if secsFromLastOpen < cfg.simulateTimeOpening then
        let closingTimeRemaining :=
          (secsFromLastOpen / cfg.simulateTimeOpening) * cfg.simulateTimeClosing
        (closingTimeRemaining, setSeconds now ((getSeconds now : ℚ) - closingTimeRemaining))
      else (cfg.simulateTimeClosing, now)
    | none => (cfg.simulateTimeClosing, now)
  else (cfg.simulateTimeClosing, now)

/-- Source `openGarageDoor` (lines 215-246). A normal return is also the call of
`callback`, when one was passed. The `if (force)` block is written in two parts: the second
`executeGPIOActions`, and `openingCorrection` for what the block does to
`openingTimeRemaining` and `this.lastOpened` (the pulse touches neither). -/
def openGarageDoor (hw : Nat → Bool) (force : Bool) (s : Engine) : Except Engine Engine :=
  let now := newDate s
  let s1 := resetActionsQueue { s with lastOpened := some now }
  (executeGPIOActions hw s1).bind fun s2 =>
    (if force then executeGPIOActions hw s2 else .ok s2).bind fun s3 =>
      let c := openingCorrection s3.cfg force now s3.lastClosed
      .ok (simulateGarageDoorOpening c.1 { s3 with lastOpened := some c.2 })

/-- Source `closeGarageDoor` (lines 248-279), written as `openGarageDoor` is. -/
def closeGarageDoor (hw : Nat → Bool) (force : Bool) (s : Engine) : Except Engine Engine :=
  let now := newDate s
  let s1 := resetActionsQueue { s with lastClosed := some now }
  (executeGPIOActions hw s1).bind fun s2 =>
    (if force then executeGPIOActions hw s2 else .ok s2).bind fun s3 =>
      let c := closingCorrection s3.cfg force now s3.lastOpened
      .ok (simulateGarageDoorClosing c.1 { s3 with lastClosed := some c.2 })

/-- The bodies of the three timer closures (lines 286-306 and 316-319). -/
def runCallback (hw : Nat → Bool) (cb : Callback) (s : Engine) : Except Engine Engine :=
  match cb with
  | .openingDone =>
    let s1 := { s with currentDoorState := CurrentDoorState.OPEN }
    if s1.cfg.autoClosingMode ≠ "none" then
      let r := setTimeout .autoClose (s1.cfg.autoClosingDelay * 1000) s1
      .ok { r.2 with currentTimeOuts := r.2.currentTimeOuts ++ [r.1] }
    else .ok s1
  | .autoClose =>
    if s.cfg.autoClosingMode = "force" then closeGarageDoor hw false s
    else .ok (simulateGarageDoorClosing s.cfg.simulateTimeClosing s)
  | .closingDone => .ok { s with currentDoorState := CurrentDoorState.CLOSED }

/-- The `get` handler of the target state (lines 156-165): the value handed to `callback`.
A comparison with an unset `lastOpened` is a comparison with `NaN`, which is false. -/
def getTargetDoorState (s : Engine) : TargetDoorState :=
  if s.cfg.autoClosingMode ≠ "none" ∧ s.targetDoorState = TargetDoorState.OPEN ∧
      (match s.lastOpened with
       | some lo => decide (s.cfg.autoClosingDelay * 1000 ≤ ((newDate s - lo : Int) : ℚ))
       | none => false) = true then
    TargetDoorState.CLOSED
  else s.targetDoorState

/-- The `get` handler as a state transformer: the reported value and the state it leaves.
The handler only reads. -/
def onGet (s : Engine) : TargetDoorState × Engine := (getTargetDoorState s, s)

/-- The `set` handler of the target state (lines 166-199). -/
def onSet (hw : Nat → Bool) (value : TargetDoorState) (s : Engine) : Except Engine Engine :=
  match value with
  | .OPEN =>
    match s.currentDoorState with
    | .CLOSED => openGarageDoor hw false s
    | .OPEN => openGarageDoor hw false s
    | .CLOSING => openGarageDoor hw true s
    | _ => .ok s
  | .CLOSED =>
    match s.currentDoorState with
    | .OPEN => closeGarageDoor hw false s
    | .CLOSED => closeGarageDoor hw false s
    | .OPENING => closeGarageDoor hw true s
    | _ => .ok s

/-! ## The event loop -/

/-- What the environment can ask of the accessory. -/
inductive Request where
  | getTarget
  | setTarget (value : TargetDoorState)
  | timeout (handle : Nat)
  deriving DecidableEq, Repr

/-- A request together with the clock reading (milliseconds) at which it is served. -/
structure Event where
  time : Int
  req : Request
  deriving DecidableEq, Repr

/-- The state in which a method was left, by return or by exception. -/
def settle : Except Engine Engine → Engine
  | .ok s => s
  | .error s => s

/-- Modelled from the spec: the characteristic store of the accessory framework, which is
not part of the repository. It holds the target and the current value; a set-target
request that the handler acknowledges stores the requested value, one that ends in an
exception stores nothing; a read stores nothing. -/
def storeTarget (value : TargetDoorState) : Except Engine Engine → Engine
  | .ok s => { s with targetDoorState := value }
  | .error s => s

/-- One turn of the event loop: the clock is set to the time of the event and the handler
or the closure runs. A `timeout` for a handle that is not live is no event: a timer that
fired or was cleared does not fire. -/
def step (hw : Nat → Bool) (s : Engine) (e : Event) : Engine :=
  match e.req with
  | .getTarget => (onGet { s with clock := e.time }).2
  | .setTarget value => storeTarget value (onSet hw value { s with clock := e.time })
  | .timeout h =>
    match s.timers.find? (fun t => t.handle == h) with
    | none => s
    | some t =>
      settle (runCallback hw t.callback
        { s with clock := e.time, timers := s.timers.filter (fun t => t.handle != h) })

/-- The state after a sequence of events. -/
def run (hw : Nat → Bool) (s : Engine) (es : List Event) : Engine :=
  es.foldl (step hw) s

/-- A pin driver on which no operation fails. -/
def hwOk : Nat → Bool := fun _ => false

/-- The edges of the door state machine: motion starts and motion completions. -/
def allowedEdge : CurrentDoorState → CurrentDoorState → Bool
  | .CLOSED, .OPENING => true
  | .OPEN, .OPENING => true
  | .CLOSING, .OPENING => true
  | .OPENING, .OPEN => true
  | .OPEN, .CLOSING => true
  | .CLOSED, .CLOSING => true
  | .OPENING, .CLOSING => true
  | .CLOSING, .CLOSED => true
  | _, _ => false

/-- Whether a timer closure completes a motion (as opposed to arming the auto-close). -/
def Callback.isMotion : Callback → Bool
  | .openingDone => true
  | .closingDone => true
  | .autoClose => false

/-- The default configuration of the constructor with the given auto-closing values. -/
def sampleConfig (mode : String) (autoClosingDelay : ℚ) : Config :=
  { simulateTimeOpening := 15
    autoClosingDelay := autoClosingDelay
    simulateTimeClosing := 15
    autoClosingMode := mode
    doorSwitchPin := 12
    GPIOActionDelay := 1 / 2
    GPIOOpenActions := [{ type := .write, value := 1 }, { type := .write, value := 0 }] }

/-! ## Predicates used in the statements -/

/-- The state `s2` differs from `s1` at most in the driver-side fields (`clock`, `pinCalls`,
`pinAttempts`, `pulses`). -/
structure SameEngine (s1 s2 : Engine) : Prop where
  cfg : s2.cfg = s1.cfg
  currentTimeOuts : s2.currentTimeOuts = s1.currentTimeOuts
  lastOpened : s2.lastOpened = s1.lastOpened
  lastClosed : s2.lastClosed = s1.lastClosed
  targetDoorState : s2.targetDoorState = s1.targetDoorState
  currentDoorState : s2.currentDoorState = s1.currentDoorState
  timers : s2.timers = s1.timers
  nextHandle : s2.nextHandle = s1.nextHandle

/-- The door state in which the timer of a closure is pending: the opening timer while
`OPENING`, the auto-close timer while `OPEN`, the closing timer while `CLOSING`. -/
def Callback.phase : Callback → CurrentDoorState
  | .openingDone => .OPENING
  | .autoClose => .OPEN
  | .closingDone => .CLOSING

/-- The invariant of the reachable states: every live timer is tracked, every tracked
handle was issued, at most one timer is live and it is the one of the current door state,
and the door state is one of the four the source names. -/
structure Inv (s : Engine) : Prop where
  tracked : ∀ t ∈ s.timers, t.handle ∈ s.currentTimeOuts
  issued : ∀ h ∈ s.currentTimeOuts, h < s.nextHandle
  single : s.timers = [] ∨ ∃ t, s.timers = [t] ∧ t.callback.phase = s.currentDoorState
  named : s.currentDoorState ≠ CurrentDoorState.STOPPED

/-- What every turn keeps: the configuration is not touched, handles are issued in
increasing order, and a live timer of the new state is a live timer of the old state or
carries a handle issued since. -/
structure Frame (s1 s2 : Engine) : Prop where
  cfg : s2.cfg = s1.cfg
  handles : s1.nextHandle ≤ s2.nextHandle
  timers : ∀ t ∈ s2.timers, t ∈ s1.timers ∨ s1.nextHandle ≤ t.handle

/-- Whether a method returned normally. -/
def returned : Except Engine Engine → Bool
  | .ok _ => true
  | .error _ => false

/-- The (request, door state) pairs for which the `set` handler calls `openGarageDoor` or
`closeGarageDoor` (lines 170-177 and 186-193). -/
def inTable : TargetDoorState → CurrentDoorState → Bool
  | .OPEN, .CLOSED => true
  | .OPEN, .OPEN => true
  | .OPEN, .CLOSING => true
  | .CLOSED, .OPEN => true
  | .CLOSED, .CLOSED => true
  | .CLOSED, .OPENING => true
  | _, _ => false

/-- Whether an event is a set-target request. -/
def Event.isSet (e : Event) : Bool :=
  match e.req with
  | .setTarget _ => true
  | _ => false

/-- The pair of facts carried along a run: the invariant of the new state, and the edge
taken by the door state. -/
def GoodStep (s s2 : Engine) : Prop :=
  Inv s2 ∧ (s2.currentDoorState = s.currentDoorState ∨
    allowedEdge s.currentDoorState s2.currentDoorState = true)

/-! ## Construction -/

/-- One entry of `GPIOOpenActions` as the configuration writes it: two strings. -/
structure RawAction where
  type : String
  value : String
  deriving DecidableEq, Repr

/-- The `config` object handed to the constructor, restricted to the keys the engine reads;
a missing key is `none`. Durations are numbers, the mode is a string. -/
structure RawConfig where
  simulateTimeOpening : Option ℚ
  autoClosingDelay : Option ℚ
  simulateTimeClosing : Option ℚ
  autoClosingMode : Option String
  doorSwitchPin : Option Nat
  GPIOActionDelay : Option ℚ
  GPIOOpenActions : Option (List RawAction)
  deriving DecidableEq

/-- The validation library `schema-inspector`, which is not part of the repository, as a
parameter. `sanitizeString eq dflt x` is the `data` of the result of
`inspector.sanitize({ type: 'string', eq: eq, def: dflt }, x)`. `actions l` is the action
list that the in-place sanitization of lines 90-99 leaves when the validation of lines
101-110 accepts it, and `none` when the validation rejects it; `l = none` is a missing
`GPIOOpenActions`, for which the library is handed the built-in list of lines 46-49. -/
structure Inspector where
  sanitizeString : List String → String → String → String
  actions : Option (List RawAction) → Option (List Action)

/-- The expression `x || d` for `x` a number or `undefined`: `0` is falsy. -/
def orNumber (x : Option ℚ) (d : ℚ) : ℚ :=
  match x with
  | some v => if v = 0 then d else v
  | none => d

/-- The expression `x || d` for `x` a pin number or `undefined`. -/
def orPin (x : Option Nat) (d : Nat) : Nat :=
  match x with
  | some v => if v = 0 then d else v
  | none => d

/-- The expression `x || d` for `x` a string or `undefined`: the empty string is falsy. -/
def orString (x : Option String) (d : String) : String :=
  match x with
  | some v => if v = "" then d else v
  | none => d

/-- Source `sanitizeConfig` (lines 71-116), on the two fields of `this` it is handed that the
engine reads: the values of `this.autoClosingMode` and `this.GPIOOpenActions` when it
returns, or `none` for the `throw` of line 114. The result of the `sanitize` call of lines
84-88 is not assigned and a string is passed by value, so `this.autoClosingMode` keeps its
value. -/
def sanitizeConfig (insp : Inspector) (autoClosingMode : String)
    (GPIOOpenActions : Option (List RawAction)) : Option (String × List Action) :=
  let _data := insp.sanitizeString ["force", "self", "none"] "none" autoClosingMode
  match insp.actions GPIOOpenActions with
  | some actions => some (autoClosingMode, actions)
  | none => none

/-- Source `constructor` (lines 28-69): the engine it leaves, or `none` when `sanitizeConfig`
throws. -/
def construct (insp : Inspector) (config : RawConfig) : Option Engine :=
  let simulateTimeOpening := orNumber config.simulateTimeOpening 15
  let autoClosingDelay := orNumber config.autoClosingDelay 30
  let simulateTimeClosing := orNumber config.simulateTimeClosing 15
  let autoClosingMode := orString config.autoClosingMode "none"
  let doorSwitchPin := orPin config.doorSwitchPin 12
  let GPIOActionDelay := orNumber config.GPIOActionDelay (1 / 2)
  match sanitizeConfig insp autoClosingMode config.GPIOOpenActions with
  | none => none
  | some r =>
    some (init
      { simulateTimeOpening := simulateTimeOpening
        autoClosingDelay := autoClosingDelay
        simulateTimeClosing := simulateTimeClosing
        autoClosingMode := r.1
        doorSwitchPin := doorSwitchPin
        GPIOActionDelay := GPIOActionDelay
        GPIOOpenActions := r.2 })

/-- A sample action converter: the two operation names and the four value names of the
schema of lines 95-96, with the numbers the pin library gives them. -/
def sampleAction (a : RawAction) : Option Action :=
  match (if a.type = "write" then some ActionType.write
         else if a.type = "mode" then some ActionType.mode else none),
        (if a.value = "HIGH" ∨ a.value = "OUTPUT" then some 1
         else if a.value = "LOW" ∨ a.value = "INPUT" then some 0 else none) with
  | some t, some v => some { type := t, value := v }
  | _, _ => none

/-- A sample library for the concrete runs: a sanitization that would replace a string
outside `eq` by the default, and a validation that accepts the lists whose entries all
convert. -/
def sampleInspector : Inspector :=
  { sanitizeString := fun eq dflt x => if x ∈ eq then x else dflt
    actions := fun l =>
      match l with
      | none => none
      | some l => l.mapM sampleAction }

/-- A sample configuration object: only the mode and the action list are given. -/
def sampleRaw (mode : Option String) : RawConfig :=
  { simulateTimeOpening := none
    autoClosingDelay := none
    simulateTimeClosing := none
    autoClosingMode := mode
    doorSwitchPin := none
    GPIOActionDelay := none
    GPIOOpenActions := some [{ type := "write", value := "HIGH" },
                             { type := "write", value := "LOW" }] }

/-! ## More predicates used in the statements -/

/-- The pin operations of one run of `executeGPIOActions` on which no operation fails: the
configured actions in order, on the configured pin. -/
def pulseCalls (cfg : Config) : List PinCall :=
  cfg.GPIOOpenActions.map fun a =>
    { type := a.type, pin := cfg.doorSwitchPin, value := a.value }

/-- The time (milliseconds) for which one such run blocks. -/
def pulseTime (cfg : Config) : ℚ :=
  cfg.GPIOOpenActions.length * (cfg.GPIOActionDelay * 1000)

/-- The (request, door state) pairs for which the `set` handler passes `force` (lines 176
and 192). -/
def isForced : TargetDoorState → CurrentDoorState → Bool
  | .OPEN, .CLOSING => true
  | .CLOSED, .OPENING => true
  | _, _ => false

/-- The tracked handles are all the handles issued so far, in the order of issue. -/
def Tracked (s : Engine) : Prop :=
  s.currentTimeOuts = List.range s.nextHandle

/-- While the door is `CLOSING` the stored target is `CLOSED`. -/
def ClosingTarget (s : Engine) : Prop :=
  s.currentDoorState = CurrentDoorState.CLOSING → s.targetDoorState = TargetDoorState.CLOSED

/-- The nominal duration (seconds) of the motion that a request for `value` starts. -/
def nominalDuration (cfg : Config) : TargetDoorState → ℚ
  | .OPEN => cfg.simulateTimeOpening
  | .CLOSED => cfg.simulateTimeClosing

/-- The timestamp that a request for `value` stamps: `lastOpened` for an open, `lastClosed`
for a close. -/
def stampOf (s : Engine) : TargetDoorState → Option Int
  | .OPEN => s.lastOpened
  | .CLOSED => s.lastClosed

/-- The door state in which the motion started by a request for `value` is under way. -/
def motionOf : TargetDoorState → CurrentDoorState
  | .OPEN => .OPENING
  | .CLOSED => .CLOSING

/-- The closure that completes the motion started by a request for `value`. -/
def completionOf : TargetDoorState → Callback
  | .OPEN => .openingDone
  | .CLOSED => .closingDone

/-! ## Frame lemmas of the primitives -/

theorem sameEngine_refl (s : Engine) : SameEngine s s :=
  ⟨rfl, rfl, rfl, rfl, rfl, rfl, rfl, rfl⟩

theorem sameEngine_trans {a b c : Engine} (h1 : SameEngine a b) (h2 : SameEngine b c) :
    SameEngine a c :=
  ⟨h2.cfg.trans h1.cfg, h2.currentTimeOuts.trans h1.currentTimeOuts,
   h2.lastOpened.trans h1.lastOpened, h2.lastClosed.trans h1.lastClosed,
   h2.targetDoorState.trans h1.targetDoorState, h2.currentDoorState.trans h1.currentDoorState,
   h2.timers.trans h1.timers, h2.nextHandle.trans h1.nextHandle⟩

theorem callAction_same (hw : Nat → Bool) (s : Engine) (a : Action) (s2 : Engine)
    (h : callAction hw s a = .ok s2 ∨ callAction hw s a = .error s2) :
    SameEngine s s2 ∧ s2.pulses = s.pulses := by
  unfold callAction at h
  by_cases hf : hw s.pinAttempts = true
  · simp [hf] at h
    subst h
    exact ⟨⟨rfl, rfl, rfl, rfl, rfl, rfl, rfl, rfl⟩, rfl⟩
  · simp [hf] at h
    subst h
    exact ⟨⟨rfl, rfl, rfl, rfl, rfl, rfl, rfl, rfl⟩, rfl⟩

theorem foldlM_callAction_same (hw : Nat → Bool) (as : List Action) :
    ∀ (s s2 : Engine),
      (as.foldlM (callAction hw) s = .ok s2 ∨ as.foldlM (callAction hw) s = .error s2) →
      SameEngine s s2 ∧ s2.pulses = s.pulses := by
  induction as with
  | nil =>
    intro s s2 h
    simp [List.foldlM, pure, Except.pure] at h
    subst h
    exact ⟨sameEngine_refl _, rfl⟩
  | cons a as ih =>
    intro s s2 h
    rw [List.foldlM_cons] at h
    cases hc : callAction hw s a with
    | error e =>
      rw [hc] at h
      simp [bind, Except.bind] at h
      subst h
      exact callAction_same hw s a _ (Or.inr hc)
    | ok s1 =>
      rw [hc] at h
      simp only [bind, Except.bind] at h
      have h1 := callAction_same hw s a s1 (Or.inl hc)
      have h2 := ih s1 s2 h
      exact ⟨sameEngine_trans h1.1 h2.1, h2.2.trans h1.2⟩

theorem executeGPIOActions_same (hw : Nat → Bool) (s s2 : Engine)
    (h : executeGPIOActions hw s = .ok s2 ∨ executeGPIOActions hw s = .error s2) :
    SameEngine s s2 ∧ s2.pulses = s.pulses + 1 := by
  unfold executeGPIOActions at h
  have h2 := foldlM_callAction_same hw _ _ s2 h
  exact ⟨⟨h2.1.cfg, h2.1.currentTimeOuts, h2.1.lastOpened, h2.1.lastClosed,
    h2.1.targetDoorState, h2.1.currentDoorState, h2.1.timers, h2.1.nextHandle⟩, h2.2⟩

theorem foldl_clearTimeout (hs : List Nat) :
    ∀ s : Engine, hs.foldl clearTimeout s =
      { s with timers := s.timers.filter (fun t => !hs.contains t.handle) } := by
  induction hs with
  | nil => intro s; simp
  | cons h hs ih =>
    intro s
    rw [List.foldl_cons, ih]
    simp only [clearTimeout, List.filter_filter]
    congr 1
    apply List.filter_congr
    intro t _
    by_cases e : t.handle = h <;> simp [e, List.contains_cons]

theorem resetActionsQueue_eq (s : Engine) :
    resetActionsQueue s =
      { s with timers := s.timers.filter (fun t => !s.currentTimeOuts.contains t.handle) } :=
  foldl_clearTimeout _ s

/-! ## What a command leaves behind -/

theorem secondPulse_same (hw : Nat → Bool) (force : Bool) (s s2 : Engine)
    (h : (if force then executeGPIOActions hw s else .ok s) = .ok s2 ∨
         (if force then executeGPIOActions hw s else .ok s) = .error s2) :
    SameEngine s s2 ∧ s2.pulses = s.pulses + (if force then 1 else 0) := by
  cases force with
  | true => simpa using executeGPIOActions_same hw s s2 (by simpa using h)
  | false =>
    simp at h
    subst h
    exact ⟨sameEngine_refl _, by simp⟩

theorem openGarageDoor_error (hw : Nat → Bool) (force : Bool) (s s2 : Engine)
    (h : openGarageDoor hw force s = .error s2) :
    SameEngine (resetActionsQueue { s with lastOpened := some (newDate s) }) s2 := by
  unfold openGarageDoor at h
  simp only at h
  cases h1 : executeGPIOActions hw (resetActionsQueue { s with lastOpened := some (newDate s) }) with
  | error e =>
    rw [h1] at h
    simp only [Except.bind, Except.error.injEq] at h
    subst h
    exact (executeGPIOActions_same hw _ _ (Or.inr h1)).1
  | ok a =>
    rw [h1] at h
    simp only [Except.bind] at h
    have ha := (executeGPIOActions_same hw _ _ (Or.inl h1)).1
    cases h2 : (if force then executeGPIOActions hw a else .ok a) with
    | error e =>
      rw [h2] at h
      simp only [Except.error.injEq] at h
      subst h
      exact sameEngine_trans ha (secondPulse_same hw force a _ (Or.inr h2)).1
    | ok b =>
      rw [h2] at h
      simp at h

theorem openGarageDoor_ok (hw : Nat → Bool) (force : Bool) (s s2 : Engine)
    (h : openGarageDoor hw force s = .ok s2) :
    ∃ s3, SameEngine (resetActionsQueue { s with lastOpened := some (newDate s) }) s3 ∧
      s3.pulses = s.pulses + (if force then 2 else 1) ∧
      s2 = simulateGarageDoorOpening
            (openingCorrection s.cfg force (newDate s) s.lastClosed).1
            { s3 with
              lastOpened := some (openingCorrection s.cfg force (newDate s) s.lastClosed).2 } := by
  unfold openGarageDoor at h
  simp only at h
  cases h1 : executeGPIOActions hw (resetActionsQueue { s with lastOpened := some (newDate s) }) with
  | error e =>
    rw [h1] at h
    simp [Except.bind] at h
  | ok a =>
    rw [h1] at h
    simp only [Except.bind] at h
    have ha := executeGPIOActions_same hw _ _ (Or.inl h1)
    cases h2 : (if force then executeGPIOActions hw a else .ok a) with
    | error e =>
      rw [h2] at h
      simp at h
    | ok b =>
      rw [h2] at h
      simp only [Except.ok.injEq] at h
      have hb := secondPulse_same hw force a b (Or.inl h2)
      have hab := sameEngine_trans ha.1 hb.1
      refine ⟨b, hab, ?_, ?_⟩
      · rw [hb.2, ha.2, resetActionsQueue_eq]
        cases force <;> simp
      · rw [← h, hab.cfg, hab.lastClosed, resetActionsQueue_eq]

theorem closeGarageDoor_error (hw : Nat → Bool) (force : Bool) (s s2 : Engine)
    (h : closeGarageDoor hw force s = .error s2) :
    SameEngine (resetActionsQueue { s with lastClosed := some (newDate s) }) s2 := by
  unfold closeGarageDoor at h
  simp only at h
  cases h1 : executeGPIOActions hw (resetActionsQueue { s with lastClosed := some (newDate s) }) with
  | error e =>
    rw [h1] at h
    simp only [Except.bind, Except.error.injEq] at h
    subst h
    exact (executeGPIOActions_same hw _ _ (Or.inr h1)).1
  | ok a =>
    rw [h1] at h
    simp only [Except.bind] at h
    have ha := (executeGPIOActions_same hw _ _ (Or.inl h1)).1
    cases h2 : (if force then executeGPIOActions hw a else .ok a) with
    | error e =>
      rw [h2] at h
      simp only [Except.error.injEq] at h
      subst h
      exact sameEngine_trans ha (secondPulse_same hw force a _ (Or.inr h2)).1
    | ok b =>
      rw [h2] at h
      simp at h

theorem closeGarageDoor_ok (hw : Nat → Bool) (force : Bool) (s s2 : Engine)
    (h : closeGarageDoor hw force s = .ok s2) :
    ∃ s3, SameEngine (resetActionsQueue { s with lastClosed := some (newDate s) }) s3 ∧
      s3.pulses = s.pulses + (if force then 2 else 1) ∧
      s2 = simulateGarageDoorClosing
            (closingCorrection s.cfg force (newDate s) s.lastOpened).1
            { s3 with
              lastClosed := some (closingCorrection s.cfg force (newDate s) s.lastOpened).2 } := by
  unfold closeGarageDoor at h
  simp only at h
  cases h1 : executeGPIOActions hw (resetActionsQueue { s with lastClosed := some (newDate s) }) with
  | error e =>
    rw [h1] at h
    simp [Except.bind] at h
  | ok a =>
    rw [h1] at h
    simp only [Except.bind] at h
    have ha := executeGPIOActions_same hw _ _ (Or.inl h1)
    cases h2 : (if force then executeGPIOActions hw a else .ok a) with
    | error e =>
      rw [h2] at h
      simp at h
    | ok b =>
      rw [h2] at h
      simp only [Except.ok.injEq] at h
      have hb := secondPulse_same hw force a b (Or.inl h2)
      have hab := sameEngine_trans ha.1 hb.1
      refine ⟨b, hab, ?_, ?_⟩
      · rw [hb.2, ha.2, resetActionsQueue_eq]
        cases force <;> simp
      · rw [← h, hab.cfg, hab.lastOpened, resetActionsQueue_eq]

/-! ## The invariant -/

theorem filter_tracked_nil (ts : List Timer) (hs : List Nat)
    (h : ∀ t ∈ ts, t.handle ∈ hs) :
    ts.filter (fun t => !hs.contains t.handle) = [] := by
  rw [List.filter_eq_nil_iff]
  intro t ht
  simp [h t ht]

theorem resetActionsQueue_timers (s : Engine) (h : ∀ t ∈ s.timers, t.handle ∈ s.currentTimeOuts) :
    (resetActionsQueue s).timers = [] := by
  rw [resetActionsQueue_eq]
  exact filter_tracked_nil _ _ h

theorem inv_init (cfg : Config) : Inv (init cfg) :=
  ⟨by simp [init], by simp [init], Or.inl rfl, by simp [init]⟩

theorem inv_simulateGarageDoorOpening (r : ℚ) (b : Engine) (ht : b.timers = [])
    (hi : ∀ h ∈ b.currentTimeOuts, h < b.nextHandle) :
    Inv (simulateGarageDoorOpening r b) := by
  refine ⟨?_, ?_, ?_, ?_⟩
  · simp [simulateGarageDoorOpening, setTimeout, ht]
  · intro h hh
    simp only [simulateGarageDoorOpening, setTimeout, List.mem_append, List.mem_singleton] at hh ⊢
    rcases hh with hh | hh
    · exact Nat.lt_succ_of_lt (hi h hh)
    · omega
  · right
    exact ⟨⟨b.nextHandle, .openingDone, r * 1000, b.clock⟩,
      by simp [simulateGarageDoorOpening, setTimeout, ht], rfl⟩
  · simp [simulateGarageDoorOpening, setTimeout]

theorem inv_simulateGarageDoorClosing (r : ℚ) (b : Engine) (ht : b.timers = [])
    (hi : ∀ h ∈ b.currentTimeOuts, h < b.nextHandle) :
    Inv (simulateGarageDoorClosing r b) := by
  refine ⟨?_, ?_, ?_, ?_⟩
  · simp [simulateGarageDoorClosing, setTimeout, ht]
  · intro h hh
    simp only [simulateGarageDoorClosing, setTimeout, List.mem_append, List.mem_singleton] at hh ⊢
    rcases hh with hh | hh
    · exact Nat.lt_succ_of_lt (hi h hh)
    · omega
  · right
    exact ⟨⟨b.nextHandle, .closingDone, r * 1000, b.clock⟩,
      by simp [simulateGarageDoorClosing, setTimeout, ht], rfl⟩
  · simp [simulateGarageDoorClosing, setTimeout]

/-- A state that agrees with a reset state on the engine fields has no live timer. -/
theorem same_reset_facts (s0 s1 s3 : Engine) (hinv : Inv s0)
    (h : SameEngine (resetActionsQueue s1) s3)
    (hc : s1.currentTimeOuts = s0.currentTimeOuts) (ht : s1.timers = s0.timers)
    (hn : s1.nextHandle = s0.nextHandle) (hd : s1.currentDoorState = s0.currentDoorState) :
    s3.timers = [] ∧ (∀ h ∈ s3.currentTimeOuts, h < s3.nextHandle) ∧
      s3.currentDoorState = s0.currentDoorState := by
  have e := resetActionsQueue_eq s1
  refine ⟨?_, ?_, ?_⟩
  · rw [h.timers]
    apply resetActionsQueue_timers
    rw [ht, hc]
    exact hinv.tracked
  · rw [h.currentTimeOuts, h.nextHandle, e]
    simp only [hc, hn]
    exact hinv.issued
  · rw [h.currentDoorState, e]
    exact hd

theorem inv_of_no_timer (s3 : Engine) (ht : s3.timers = [])
    (hi : ∀ h ∈ s3.currentTimeOuts, h < s3.nextHandle)
    (hn : s3.currentDoorState ≠ CurrentDoorState.STOPPED) : Inv s3 :=
  ⟨by simp [ht], hi, Or.inl ht, hn⟩

theorem inv_openGarageDoor (hw : Nat → Bool) (force : Bool) (s : Engine) (hinv : Inv s) :
    Inv (settle (openGarageDoor hw force s)) ∧
      ((settle (openGarageDoor hw force s)).currentDoorState = s.currentDoorState ∨
       (settle (openGarageDoor hw force s)).currentDoorState = CurrentDoorState.OPENING) := by
  cases h : openGarageDoor hw force s with
  | error e =>
    have hs := openGarageDoor_error hw force s e h
    have hf := same_reset_facts s _ e hinv hs rfl rfl rfl rfl
    simp only [settle]
    exact ⟨inv_of_no_timer e hf.1 hf.2.1 (by rw [hf.2.2]; exact hinv.named), Or.inl hf.2.2⟩
  | ok a =>
    obtain ⟨s3, hs, -, rfl⟩ := openGarageDoor_ok hw force s a h
    have hf := same_reset_facts s _ s3 hinv hs rfl rfl rfl rfl
    simp only [settle]
    exact ⟨inv_simulateGarageDoorOpening _ _ hf.1 hf.2.1, Or.inr rfl⟩

theorem inv_closeGarageDoor (hw : Nat → Bool) (force : Bool) (s : Engine) (hinv : Inv s) :
    Inv (settle (closeGarageDoor hw force s)) ∧
      ((settle (closeGarageDoor hw force s)).currentDoorState = s.currentDoorState ∨
       (settle (closeGarageDoor hw force s)).currentDoorState = CurrentDoorState.CLOSING) := by
  cases h : closeGarageDoor hw force s with
  | error e =>
    have hs := closeGarageDoor_error hw force s e h
    have hf := same_reset_facts s _ e hinv hs rfl rfl rfl rfl
    simp only [settle]
    exact ⟨inv_of_no_timer e hf.1 hf.2.1 (by rw [hf.2.2]; exact hinv.named), Or.inl hf.2.2⟩
  | ok a =>
    obtain ⟨s3, hs, -, rfl⟩ := closeGarageDoor_ok hw force s a h
    have hf := same_reset_facts s _ s3 hinv hs rfl rfl rfl rfl
    simp only [settle]
    exact ⟨inv_simulateGarageDoorClosing _ _ hf.1 hf.2.1, Or.inr rfl⟩

theorem inv_clock (s : Engine) (k : ℚ) (h : Inv s) : Inv { s with clock := k } :=
  ⟨h.tracked, h.issued, h.single, h.named⟩

theorem storeTarget_fields (v : TargetDoorState) (r : Except Engine Engine) :
    (storeTarget v r).currentDoorState = (settle r).currentDoorState ∧
    (storeTarget v r).timers = (settle r).timers ∧
    (storeTarget v r).currentTimeOuts = (settle r).currentTimeOuts ∧
    (storeTarget v r).nextHandle = (settle r).nextHandle := by
  cases r <;> simp [storeTarget, settle]

theorem inv_storeTarget (v : TargetDoorState) (r : Except Engine Engine) (h : Inv (settle r)) :
    Inv (storeTarget v r) := by
  obtain ⟨h1, h2, h3, h4⟩ := storeTarget_fields v r
  exact ⟨by rw [h2, h3]; exact h.tracked, by rw [h3, h4]; exact h.issued,
    by rw [h2, h1]; exact h.single, by rw [h1]; exact h.named⟩

theorem edge_of_or (c x t : CurrentDoorState) (h : x = c ∨ x = t)
    (ht : allowedEdge c t = true) : x = c ∨ allowedEdge c x = true := by
  rcases h with h | h
  · exact Or.inl h
  · exact Or.inr (by rw [h]; exact ht)

theorem goodStep_onSet_plain (hw : Nat → Bool) (v : TargetDoorState) (s : Engine)
    (hinv : Inv s) :
    GoodStep s (storeTarget v (onSet hw v s)) := by
  have ho := fun f => inv_openGarageDoor hw f s hinv
  have hc := fun f => inv_closeGarageDoor hw f s hinv
  obtain ⟨e1, -, -, -⟩ := storeTarget_fields v (onSet hw v s)
  refine ⟨inv_storeTarget _ _ ?_, ?_⟩
  · cases v <;> cases hcur : s.currentDoorState <;>
      simp only [onSet, hcur] <;>
      first
        | exact (ho _).1
        | exact (hc _).1
        | exact hinv
  · rw [e1]
    cases v <;> cases hcur : s.currentDoorState <;>
      simp only [onSet, hcur] <;>
      first
        | exact Or.inl hcur
        | exact edge_of_or _ _ .OPENING (by rw [← hcur]; exact (ho false).2) rfl
        | exact edge_of_or _ _ .OPENING (by rw [← hcur]; exact (ho true).2) rfl
        | exact edge_of_or _ _ .CLOSING (by rw [← hcur]; exact (hc false).2) rfl
        | exact edge_of_or _ _ .CLOSING (by rw [← hcur]; exact (hc true).2) rfl

theorem goodStep_onSet (hw : Nat → Bool) (v : TargetDoorState) (k : ℚ) (s : Engine)
    (hinv : Inv s) :
    GoodStep s (storeTarget v (onSet hw v { s with clock := k })) :=
  goodStep_onSet_plain hw v { s with clock := k } (inv_clock s k hinv)

theorem find_single (t0 t : Timer) (h : Nat)
    (hf : [t0].find? (fun t => t.handle == h) = some t) :
    t = t0 ∧ [t0].filter (fun t => t.handle != h) = [] := by
  cases hb : (t0.handle == h) with
  | true =>
    simp only [List.find?, hb, Option.some.injEq] at hf
    subst hf
    simp [List.filter, bne, hb]
  | false => simp [List.find?, hb] at hf

theorem goodStep_runCallback (hw : Nat → Bool) (k : ℚ) (s : Engine) (t0 : Timer)
    (hinv : Inv s) (hp : t0.callback.phase = s.currentDoorState) :
    GoodStep s (settle (runCallback hw t0.callback { s with clock := k, timers := [] })) := by
  have hb : Inv { s with clock := k, timers := [] } :=
    ⟨by simp, hinv.issued, Or.inl rfl, hinv.named⟩
  cases hcb : t0.callback with
  | openingDone =>
    rw [hcb] at hp
    simp only [Callback.phase] at hp
    by_cases hm : s.cfg.autoClosingMode = "none"
    · simp only [runCallback, hm, ne_eq, not_true_eq_false, if_false, settle]
      refine ⟨⟨by simp, hinv.issued, Or.inl rfl, by simp⟩, Or.inr ?_⟩
      simp [← hp, allowedEdge]
    · simp only [runCallback, hm, ne_eq, not_false_eq_true, if_true, settle, setTimeout]
      refine ⟨⟨by simp, ?_, Or.inr ⟨⟨s.nextHandle, .autoClose, s.cfg.autoClosingDelay * 1000, k⟩,
        by simp, rfl⟩, by simp⟩, Or.inr ?_⟩
      · intro h hh
        simp only [List.mem_append, List.mem_singleton] at hh ⊢
        rcases hh with hh | hh
        · exact Nat.lt_succ_of_lt (hinv.issued h hh)
        · omega
      · simp [← hp, allowedEdge]
  | autoClose =>
    rw [hcb] at hp
    simp only [Callback.phase] at hp
    by_cases hm : s.cfg.autoClosingMode = "force"
    · simp only [runCallback, hm, if_true]
      have h := inv_closeGarageDoor hw false _ hb
      refine ⟨h.1, ?_⟩
      rcases h.2 with h2 | h2
      · exact Or.inl h2
      · right
        rw [h2, ← hp]
        rfl
    · simp only [runCallback, hm, if_false, settle]
      refine ⟨inv_simulateGarageDoorClosing _ _ rfl hinv.issued, Or.inr ?_⟩
      simp [← hp, allowedEdge, simulateGarageDoorClosing, setTimeout]
  | closingDone =>
    rw [hcb] at hp
    simp only [Callback.phase] at hp
    simp only [runCallback, settle]
    refine ⟨⟨by simp, hinv.issued, Or.inl rfl, by simp⟩, Or.inr ?_⟩
    simp [← hp, allowedEdge]

theorem goodStep_step (hw : Nat → Bool) (s : Engine) (e : Event) (hinv : Inv s) :
    GoodStep s (step hw s e) := by
  unfold step
  cases hr : e.req with
  | getTarget => exact ⟨inv_clock s _ hinv, Or.inl rfl⟩
  | setTarget v => exact goodStep_onSet hw v _ s hinv
  | timeout h =>
    simp only
    cases hf : s.timers.find? (fun t => t.handle == h) with
    | none => exact ⟨hinv, Or.inl rfl⟩
    | some t =>
      simp only
      rcases hinv.single with h0 | ⟨t0, h1, hp⟩
      · simp [h0] at hf
      · rw [h1] at hf
        obtain ⟨rfl, hnil⟩ := find_single t0 t h hf
        rw [h1, hnil]
        exact goodStep_runCallback hw _ s t hinv hp

theorem inv_step (hw : Nat → Bool) (s : Engine) (e : Event) (hinv : Inv s) :
    Inv (step hw s e) :=
  (goodStep_step hw s e hinv).1

theorem inv_run (hw : Nat → Bool) (es : List Event) :
    ∀ s : Engine, Inv s → Inv (run hw s es) := by
  induction es with
  | nil => intro s h; exact h
  | cons e es ih =>
    intro s h
    exact ih _ (inv_step hw s e h)

theorem run_append (hw : Nat → Bool) (s : Engine) (es fs : List Event) :
    run hw s (es ++ fs) = run hw (run hw s es) fs := by
  simp [run, List.foldl_append]

/-! ## Accepted commands on states that satisfy the invariant -/

theorem returned_ok (r : Except Engine Engine) (h : returned r = true) : ∃ s2, r = .ok s2 := by
  cases r with
  | error e => simp [returned] at h
  | ok a => exact ⟨a, rfl⟩

theorem openGarageDoor_ok_fields (hw : Nat → Bool) (force : Bool) (s s2 : Engine)
    (hinv : Inv s) (h : openGarageDoor hw force s = .ok s2) :
    s2.currentDoorState = CurrentDoorState.OPENING ∧ s2.cfg = s.cfg ∧
    s2.targetDoorState = s.targetDoorState ∧ s2.lastClosed = s.lastClosed ∧
    s2.lastOpened = some (openingCorrection s.cfg force (newDate s) s.lastClosed).2 ∧
    s2.pulses = s.pulses + (if force then 2 else 1) ∧
    s2.currentTimeOuts = s.currentTimeOuts ++ [s.nextHandle] ∧
    s2.nextHandle = s.nextHandle + 1 ∧
    ∃ k, s2.timers = [⟨s.nextHandle, .openingDone,
      (openingCorrection s.cfg force (newDate s) s.lastClosed).1 * 1000, k⟩] := by
  obtain ⟨s3, hs, hp, rfl⟩ := openGarageDoor_ok hw force s s2 h
  have hf := same_reset_facts s _ s3 hinv hs rfl rfl rfl rfl
  have e := resetActionsQueue_eq { s with lastOpened := some (newDate s) }
  have h1 := hs.cfg
  have h2 := hs.targetDoorState
  have h3 := hs.lastClosed
  have h4 := hs.currentTimeOuts
  have h5 := hs.nextHandle
  rw [e] at h1 h2 h3 h4 h5
  simp only at h1 h2 h3 h4 h5
  refine ⟨rfl, h1, h2, h3, rfl, hp, ?_, ?_, ⟨s3.clock, ?_⟩⟩
  · simp [simulateGarageDoorOpening, setTimeout, h4, h5]
  · simp [simulateGarageDoorOpening, setTimeout, h5]
  · simp [simulateGarageDoorOpening, setTimeout, hf.1, h5]

theorem closeGarageDoor_ok_fields (hw : Nat → Bool) (force : Bool) (s s2 : Engine)
    (hinv : Inv s) (h : closeGarageDoor hw force s = .ok s2) :
    s2.currentDoorState = CurrentDoorState.CLOSING ∧ s2.cfg = s.cfg ∧
    s2.targetDoorState = TargetDoorState.CLOSED ∧ s2.lastOpened = s.lastOpened ∧
    s2.lastClosed = some (closingCorrection s.cfg force (newDate s) s.lastOpened).2 ∧
    s2.pulses = s.pulses + (if force then 2 else 1) ∧
    s2.currentTimeOuts = s.currentTimeOuts ++ [s.nextHandle] ∧
    s2.nextHandle = s.nextHandle + 1 ∧
    ∃ k, s2.timers = [⟨s.nextHandle, .closingDone,
      (closingCorrection s.cfg force (newDate s) s.lastOpened).1 * 1000, k⟩] := by
  obtain ⟨s3, hs, hp, rfl⟩ := closeGarageDoor_ok hw force s s2 h
  have hf := same_reset_facts s _ s3 hinv hs rfl rfl rfl rfl
  have e := resetActionsQueue_eq { s with lastClosed := some (newDate s) }
  have h1 := hs.cfg
  have h3 := hs.lastOpened
  have h4 := hs.currentTimeOuts
  have h5 := hs.nextHandle
  rw [e] at h1 h3 h4 h5
  simp only at h1 h3 h4 h5
  refine ⟨rfl, h1, rfl, h3, rfl, hp, ?_, ?_, ⟨s3.clock, ?_⟩⟩
  · simp [simulateGarageDoorClosing, setTimeout, h4, h5]
  · simp [simulateGarageDoorClosing, setTimeout, h5]
  · simp [simulateGarageDoorClosing, setTimeout, hf.1, h5]

theorem newDate_clock (s : Engine) (now : Int) : newDate { s with clock := (now : ℚ) } = now := by
  simp [newDate]

theorem step_timeout_single (hw : Nat → Bool) (s : Engine) (t : Timer) (now : Int)
    (h : s.timers = [t]) :
    step hw s ⟨now, .timeout t.handle⟩ =
      settle (runCallback hw t.callback { s with clock := now, timers := [] }) := by
  simp [step, h, List.find?, List.filter]

theorem step_timeout_none (hw : Nat → Bool) (s : Engine) (h : Nat) (now : Int)
    (hn : s.timers = []) : step hw s ⟨now, .timeout h⟩ = s := by
  simp [step, hn]

/-! ## The frame of a turn -/

theorem frame_refl (s : Engine) : Frame s s :=
  ⟨rfl, Nat.le_refl _, fun _ h => Or.inl h⟩

theorem frame_trans {a b c : Engine} (h1 : Frame a b) (h2 : Frame b c) : Frame a c := by
  refine ⟨h2.cfg.trans h1.cfg, Nat.le_trans h1.handles h2.handles, ?_⟩
  intro t ht
  rcases h2.timers t ht with h | h
  · exact h1.timers t h
  · exact Or.inr (Nat.le_trans h1.handles h)

theorem same_reset_frame (s1 s3 : Engine) (h : SameEngine (resetActionsQueue s1) s3) :
    s3.cfg = s1.cfg ∧ s3.nextHandle = s1.nextHandle ∧ ∀ t ∈ s3.timers, t ∈ s1.timers := by
  have e := resetActionsQueue_eq s1
  refine ⟨by rw [h.cfg, e], by rw [h.nextHandle, e], ?_⟩
  intro t ht
  rw [h.timers, e] at ht
  exact (List.mem_filter.mp ht).1

theorem frame_openGarageDoor (hw : Nat → Bool) (force : Bool) (s : Engine) :
    Frame s (settle (openGarageDoor hw force s)) := by
  cases h : openGarageDoor hw force s with
  | error e =>
    obtain ⟨h1, h2, h3⟩ := same_reset_frame _ e (openGarageDoor_error hw force s e h)
    exact ⟨h1, Nat.le_of_eq h2.symm, fun t ht => Or.inl (h3 t ht)⟩
  | ok a =>
    obtain ⟨s3, hs, -, rfl⟩ := openGarageDoor_ok hw force s a h
    obtain ⟨h1, h2, h3⟩ := same_reset_frame _ s3 hs
    refine ⟨h1, ?_, ?_⟩
    · simp only [settle, simulateGarageDoorOpening, setTimeout, h2]
      exact Nat.le_succ _
    · intro t ht
      simp only [settle, simulateGarageDoorOpening, setTimeout, List.mem_append,
        List.mem_singleton] at ht
      rcases ht with ht | ht
      · exact Or.inl (h3 t ht)
      · right
        rw [ht]
        exact Nat.le_of_eq h2.symm

theorem frame_closeGarageDoor (hw : Nat → Bool) (force : Bool) (s : Engine) :
    Frame s (settle (closeGarageDoor hw force s)) := by
  cases h : closeGarageDoor hw force s with
  | error e =>
    obtain ⟨h1, h2, h3⟩ := same_reset_frame _ e (closeGarageDoor_error hw force s e h)
    exact ⟨h1, Nat.le_of_eq h2.symm, fun t ht => Or.inl (h3 t ht)⟩
  | ok a =>
    obtain ⟨s3, hs, -, rfl⟩ := closeGarageDoor_ok hw force s a h
    obtain ⟨h1, h2, h3⟩ := same_reset_frame _ s3 hs
    refine ⟨h1, ?_, ?_⟩
    · simp only [settle, simulateGarageDoorClosing, setTimeout, h2]
      exact Nat.le_succ _
    · intro t ht
      simp only [settle, simulateGarageDoorClosing, setTimeout, List.mem_append,
        List.mem_singleton] at ht
      rcases ht with ht | ht
      · exact Or.inl (h3 t ht)
      · right
        rw [ht]
        exact Nat.le_of_eq h2.symm

theorem frame_storeTarget (v : TargetDoorState) (s : Engine) (r : Except Engine Engine)
    (h : Frame s (settle r)) : Frame s (storeTarget v r) := by
  cases r with
  | error e => exact h
  | ok a => exact ⟨h.cfg, h.handles, h.timers⟩

theorem frame_onSet (hw : Nat → Bool) (v : TargetDoorState) (s : Engine) :
    Frame s (settle (onSet hw v s)) := by
  cases v <;> cases hcur : s.currentDoorState <;> simp only [onSet, hcur] <;>
    first
      | exact frame_openGarageDoor hw _ s
      | exact frame_closeGarageDoor hw _ s
      | exact frame_refl s

theorem frame_runCallback (hw : Nat → Bool) (cb : Callback) (s : Engine) :
    Frame s (settle (runCallback hw cb s)) := by
  cases cb with
  | openingDone =>
    by_cases hm : s.cfg.autoClosingMode = "none"
    · simp only [runCallback, hm, ne_eq, not_true_eq_false, if_false, settle]
      exact ⟨rfl, Nat.le_refl _, fun _ h => Or.inl h⟩
    · simp only [runCallback, hm, ne_eq, not_false_eq_true, if_true, settle, setTimeout]
      refine ⟨rfl, Nat.le_succ _, ?_⟩
      intro t ht
      simp only [List.mem_append, List.mem_singleton] at ht
      rcases ht with ht | ht
      · exact Or.inl ht
      · right
        rw [ht]
  | autoClose =>
    by_cases hm : s.cfg.autoClosingMode = "force"
    · simp only [runCallback, hm, if_true]
      exact frame_closeGarageDoor hw false s
    · simp only [runCallback, hm, if_false, settle, simulateGarageDoorClosing, setTimeout]
      refine ⟨rfl, Nat.le_succ _, ?_⟩
      intro t ht
      simp only [List.mem_append, List.mem_singleton] at ht
      rcases ht with ht | ht
      · exact Or.inl ht
      · right
        rw [ht]
  | closingDone =>
    simp only [runCallback, settle]
    exact ⟨rfl, Nat.le_refl _, fun _ h => Or.inl h⟩

theorem frame_step (hw : Nat → Bool) (s : Engine) (e : Event) : Frame s (step hw s e) := by
  unfold step
  cases hr : e.req with
  | getTarget => exact ⟨rfl, Nat.le_refl _, fun _ h => Or.inl h⟩
  | setTarget v =>
    have h := frame_onSet hw v { s with clock := e.time }
    exact frame_storeTarget v s _ ⟨h.cfg, h.handles, h.timers⟩
  | timeout h =>
    simp only
    cases hf : s.timers.find? (fun t => t.handle == h) with
    | none => exact frame_refl s
    | some t =>
      simp only
      have h2 := frame_runCallback hw t.callback
        { s with clock := e.time, timers := s.timers.filter (fun t => t.handle != h) }
      refine ⟨h2.cfg, h2.handles, ?_⟩
      intro t2 ht2
      rcases h2.timers t2 ht2 with h3 | h3
      · exact Or.inl (List.mem_filter.mp h3).1
      · exact Or.inr h3

theorem frame_run (hw : Nat → Bool) (es : List Event) :
    ∀ s : Engine, Frame s (run hw s es) := by
  induction es with
  | nil => intro s; exact frame_refl s
  | cons e es ih =>
    intro s
    exact frame_trans (frame_step hw s e) (ih _)

theorem run_cfg (hw : Nat → Bool) (cfg : Config) (es : List Event) :
    (run hw (init cfg) es).cfg = cfg :=
  (frame_run hw es (init cfg)).cfg

/-! ## A driver that never fails -/

theorem foldlM_callAction_hwOk (as : List Action) :
    ∀ s : Engine, returned (as.foldlM (callAction hwOk) s) = true := by
  induction as with
  | nil => intro s; rfl
  | cons a as ih =>
    intro s
    rw [List.foldlM_cons]
    simp only [callAction, hwOk, Bool.false_eq_true, if_false, bind, Except.bind]
    exact ih _

theorem executeGPIOActions_hwOk (s : Engine) : returned (executeGPIOActions hwOk s) = true :=
  foldlM_callAction_hwOk _ _

theorem openGarageDoor_hwOk (force : Bool) (s : Engine) :
    returned (openGarageDoor hwOk force s) = true := by
  unfold openGarageDoor
  simp only
  obtain ⟨a, ha⟩ := returned_ok _ (executeGPIOActions_hwOk
    (resetActionsQueue { s with lastOpened := some (newDate s) }))
  rw [ha]
  cases force with
  | false => rfl
  | true =>
    obtain ⟨b, hb⟩ := returned_ok _ (executeGPIOActions_hwOk a)
    simp only [Except.bind, if_true, hb]
    rfl

theorem closeGarageDoor_hwOk (force : Bool) (s : Engine) :
    returned (closeGarageDoor hwOk force s) = true := by
  unfold closeGarageDoor
  simp only
  obtain ⟨a, ha⟩ := returned_ok _ (executeGPIOActions_hwOk
    (resetActionsQueue { s with lastClosed := some (newDate s) }))
  rw [ha]
  cases force with
  | false => rfl
  | true =>
    obtain ⟨b, hb⟩ := returned_ok _ (executeGPIOActions_hwOk a)
    simp only [Except.bind, if_true, hb]
    rfl

/-! ## The claims -/

theorem accepted_onSet (hw : Nat → Bool) (v : TargetDoorState) (s : Engine) (hinv : Inv s)
    (hin : inTable v s.currentDoorState = true) (hret : returned (onSet hw v s) = true) :
    ∃ s2, onSet hw v s = .ok s2 ∧ s2.nextHandle = s.nextHandle + 1 ∧
      ∃ t2, s2.timers = [t2] ∧ t2.callback.isMotion = true ∧ t2.handle = s.nextHandle := by
  obtain ⟨s2, h2⟩ := returned_ok _ hret
  refine ⟨s2, h2, ?_⟩
  cases v with
  | OPEN =>
    cases hcur : s.currentDoorState <;> rw [hcur] at hin <;>
      simp only [inTable, Bool.false_eq_true] at hin <;>
      simp only [onSet, hcur] at h2 <;>
      exact (openGarageDoor_ok_fields hw _ s s2 hinv h2).2.2.2.2.2.2.2.elim
        fun hn hk => hk.elim fun k hk => ⟨hn, _, hk, rfl, rfl⟩
  | CLOSED =>
    cases hcur : s.currentDoorState <;> rw [hcur] at hin <;>
      simp only [inTable, Bool.false_eq_true] at hin <;>
      simp only [onSet, hcur] at h2 <;>
      exact (closeGarageDoor_ok_fields hw _ s s2 hinv h2).2.2.2.2.2.2.2.elim
        fun hn hk => hk.elim fun k hk => ⟨hn, _, hk, rfl, rfl⟩

theorem length_filter_single_le (p : Timer → Bool) (ts : List Timer)
    (h : ts = [] ∨ ∃ t, ts = [t] ∧ t.callback.phase = c) : (ts.filter p).length ≤ 1 := by
  rcases h with h | ⟨t, h, -⟩
  · simp [h]
  · rw [h]
    exact Nat.le_trans (List.length_filter_le _ _) (by simp)

theorem onSet_open (hw : Nat → Bool) (force : Bool) (s : Engine)
    (hf : (force = false ∧ (s.currentDoorState = CurrentDoorState.CLOSED ∨
            s.currentDoorState = CurrentDoorState.OPEN)) ∨
          (force = true ∧ s.currentDoorState = CurrentDoorState.CLOSING)) :
    onSet hw .OPEN s = openGarageDoor hw force s := by
  rcases hf with ⟨rfl, h | h⟩ | ⟨rfl, h⟩ <;> simp only [onSet, h]

theorem onSet_close (hw : Nat → Bool) (force : Bool) (s : Engine)
    (hf : (force = false ∧ (s.currentDoorState = CurrentDoorState.OPEN ∨
            s.currentDoorState = CurrentDoorState.CLOSED)) ∨
          (force = true ∧ s.currentDoorState = CurrentDoorState.OPENING)) :
    onSet hw .CLOSED s = closeGarageDoor hw force s := by
  rcases hf with ⟨rfl, h | h⟩ | ⟨rfl, h⟩ <;> simp only [onSet, h]

/-- The state after an open request that the table handles and that returns. -/
theorem step_open_accepted (hw : Nat → Bool) (force : Bool) (s : Engine) (now : Int)
    (hinv : Inv s)
    (hf : (force = false ∧ (s.currentDoorState = CurrentDoorState.CLOSED ∨
            s.currentDoorState = CurrentDoorState.OPEN)) ∨
          (force = true ∧ s.currentDoorState = CurrentDoorState.CLOSING))
    (hret : returned (onSet hw .OPEN { s with clock := now }) = true) :
    (step hw s ⟨now, .setTarget .OPEN⟩).currentDoorState = CurrentDoorState.OPENING ∧
    (step hw s ⟨now, .setTarget .OPEN⟩).cfg = s.cfg ∧
    (step hw s ⟨now, .setTarget .OPEN⟩).targetDoorState = TargetDoorState.OPEN ∧
    (step hw s ⟨now, .setTarget .OPEN⟩).lastClosed = s.lastClosed ∧
    (step hw s ⟨now, .setTarget .OPEN⟩).lastOpened =
      some (openingCorrection s.cfg force now s.lastClosed).2 ∧
    (step hw s ⟨now, .setTarget .OPEN⟩).pulses = s.pulses + (if force then 2 else 1) ∧
    (step hw s ⟨now, .setTarget .OPEN⟩).nextHandle = s.nextHandle + 1 ∧
    ∃ k, (step hw s ⟨now, .setTarget .OPEN⟩).timers =
      [⟨s.nextHandle, .openingDone, (openingCorrection s.cfg force now s.lastClosed).1 * 1000,
        k⟩] := by
  obtain ⟨a, ha⟩ := returned_ok _ hret
  have hstep : step hw s ⟨now, .setTarget .OPEN⟩ = { a with targetDoorState := .OPEN } := by
    simp only [step, ha, storeTarget]
  rw [onSet_open hw force { s with clock := now } hf] at ha
  obtain ⟨h1, h2, -, h4, h5, h6, -, h8, k, h9⟩ :=
    openGarageDoor_ok_fields hw force _ a (inv_clock s _ hinv) ha
  rw [newDate_clock] at h5 h9
  rw [hstep]
  exact ⟨h1, h2, rfl, h4, h5, h6, h8, k, h9⟩

/-- The state after a close request that the table handles and that returns. -/
theorem step_close_accepted (hw : Nat → Bool) (force : Bool) (s : Engine) (now : Int)
    (hinv : Inv s)
    (hf : (force = false ∧ (s.currentDoorState = CurrentDoorState.OPEN ∨
            s.currentDoorState = CurrentDoorState.CLOSED)) ∨
          (force = true ∧ s.currentDoorState = CurrentDoorState.OPENING))
    (hret : returned (onSet hw .CLOSED { s with clock := now }) = true) :
    (step hw s ⟨now, .setTarget .CLOSED⟩).currentDoorState = CurrentDoorState.CLOSING ∧
    (step hw s ⟨now, .setTarget .CLOSED⟩).cfg = s.cfg ∧
    (step hw s ⟨now, .setTarget .CLOSED⟩).targetDoorState = TargetDoorState.CLOSED ∧
    (step hw s ⟨now, .setTarget .CLOSED⟩).lastOpened = s.lastOpened ∧
    (step hw s ⟨now, .setTarget .CLOSED⟩).lastClosed =
      some (closingCorrection s.cfg force now s.lastOpened).2 ∧
    (step hw s ⟨now, .setTarget .CLOSED⟩).pulses = s.pulses + (if force then 2 else 1) ∧
    (step hw s ⟨now, .setTarget .CLOSED⟩).nextHandle = s.nextHandle + 1 ∧
    ∃ k, (step hw s ⟨now, .setTarget .CLOSED⟩).timers =
      [⟨s.nextHandle, .closingDone, (closingCorrection s.cfg force now s.lastOpened).1 * 1000,
        k⟩] := by
  obtain ⟨a, ha⟩ := returned_ok _ hret
  have hstep : step hw s ⟨now, .setTarget .CLOSED⟩ = { a with targetDoorState := .CLOSED } := by
    simp only [step, ha, storeTarget]
  rw [onSet_close hw force { s with clock := now } hf] at ha
  obtain ⟨h1, h2, -, h4, h5, h6, -, h8, k, h9⟩ :=
    closeGarageDoor_ok_fields hw force _ a (inv_clock s _ hinv) ha
  rw [newDate_clock] at h5 h9
  rw [hstep]
  exact ⟨h1, h2, rfl, h4, h5, h6, h8, k, h9⟩

theorem openingCorrection_normal (cfg : Config) (now : Int) (lc : Option Int) :
    openingCorrection cfg false now lc = (cfg.simulateTimeOpening, now) := by
  simp [openingCorrection]

theorem closingCorrection_normal (cfg : Config) (now : Int) (lo : Option Int) :
    closingCorrection cfg false now lo = (cfg.simulateTimeClosing, now) := by
  simp [closingCorrection]

theorem openingCorrection_forced (cfg : Config) (now lc : Int)
    (h : ((now - lc : Int) : ℚ) / 1000 < cfg.simulateTimeClosing) :
    openingCorrection cfg true now (some lc) =
      ((((now - lc : Int) : ℚ) / 1000) / cfg.simulateTimeClosing * cfg.simulateTimeOpening,
       setSeconds now ((getSeconds now : ℚ) -
         (((now - lc : Int) : ℚ) / 1000) / cfg.simulateTimeClosing * cfg.simulateTimeOpening)) := by
  simp only [openingCorrection, if_true, if_pos h]

theorem closingCorrection_forced (cfg : Config) (now lo : Int)
    (h : ((now - lo : Int) : ℚ) / 1000 < cfg.simulateTimeOpening) :
    closingCorrection cfg true now (some lo) =
      ((((now - lo : Int) : ℚ) / 1000) / cfg.simulateTimeOpening * cfg.simulateTimeClosing,
       setSeconds now ((getSeconds now : ℚ) -
         (((now - lo : Int) : ℚ) / 1000) / cfg.simulateTimeOpening * cfg.simulateTimeClosing)) := by
  simp only [closingCorrection, if_true, if_pos h]

theorem openingCorrection_late (cfg : Config) (now lc : Int)
    (h : cfg.simulateTimeClosing ≤ ((now - lc : Int) : ℚ) / 1000) :
    openingCorrection cfg true now (some lc) = (cfg.simulateTimeOpening, now) := by
  simp only [openingCorrection, if_true, if_neg (not_lt.mpr h)]

theorem closingCorrection_late (cfg : Config) (now lo : Int)
    (h : cfg.simulateTimeOpening ≤ ((now - lo : Int) : ℚ) / 1000) :
    closingCorrection cfg true now (some lo) = (cfg.simulateTimeClosing, now) := by
  simp only [closingCorrection, if_true, if_neg (not_lt.mpr h)]

theorem scaled_bounds (e a b : ℚ) (he : 0 ≤ e) (ha : 0 < a) (hb : 0 < b) (h : e < a) :
    0 ≤ e / a * b ∧ e / a * b ≤ b := by
  have h1 : 0 ≤ e / a := div_nonneg he (le_of_lt ha)
  have h2 : e / a ≤ 1 := le_of_lt ((div_lt_one ha).mpr h)
  exact ⟨mul_nonneg h1 (le_of_lt hb), mul_le_of_le_one_left (le_of_lt hb) h2⟩

theorem elapsed_nonneg (now l : Int) (h : l ≤ now) : (0 : ℚ) ≤ ((now - l : Int) : ℚ) / 1000 := by
  apply div_nonneg
  · exact_mod_cast Int.sub_nonneg_of_le h
  · norm_num

theorem openingCorrection_bounds (cfg : Config) (now : Int) (lc : Option Int)
    (hO : 0 < cfg.simulateTimeOpening) (hC : 0 < cfg.simulateTimeClosing)
    (hnn : ∀ l, lc = some l → l ≤ now) :
    0 ≤ (openingCorrection cfg true now lc).1 ∧
    (openingCorrection cfg true now lc).1 ≤ cfg.simulateTimeOpening := by
  cases lc with
  | none => simp [openingCorrection, le_of_lt hO]
  | some l =>
    by_cases h : ((now - l : Int) : ℚ) / 1000 < cfg.simulateTimeClosing
    · rw [openingCorrection_forced cfg now l h]
      exact scaled_bounds _ _ _ (elapsed_nonneg now l (hnn l rfl)) hC hO h
    · rw [openingCorrection_late cfg now l (not_lt.mp h)]
      exact ⟨le_of_lt hO, le_refl _⟩

theorem closingCorrection_bounds (cfg : Config) (now : Int) (lo : Option Int)
    (hO : 0 < cfg.simulateTimeOpening) (hC : 0 < cfg.simulateTimeClosing)
    (hnn : ∀ l, lo = some l → l ≤ now) :
    0 ≤ (closingCorrection cfg true now lo).1 ∧
    (closingCorrection cfg true now lo).1 ≤ cfg.simulateTimeClosing := by
  cases lo with
  | none => simp [closingCorrection, le_of_lt hC]
  | some l =>
    by_cases h : ((now - l : Int) : ℚ) / 1000 < cfg.simulateTimeOpening
    · rw [closingCorrection_forced cfg now l h]
      exact scaled_bounds _ _ _ (elapsed_nonneg now l (hnn l rfl)) hO hC h
    · rw [closingCorrection_late cfg now l (not_lt.mp h)]
      exact ⟨le_of_lt hC, le_refl _⟩

/-! ### Timer firings on a state with one live timer -/

theorem fire_openingDone_none (hw : Nat → Bool) (s : Engine) (t : Timer) (now : Int)
    (ht : s.timers = [t]) (hcb : t.callback = .openingDone)
    (hm : s.cfg.autoClosingMode = "none") :
    step hw s ⟨now, .timeout t.handle⟩ =
      { s with clock := now, timers := [], currentDoorState := .OPEN } := by
  rw [step_timeout_single hw s t now ht, hcb]
  simp [runCallback, hm, settle]

theorem fire_openingDone_arm (hw : Nat → Bool) (s : Engine) (t : Timer) (now : Int)
    (ht : s.timers = [t]) (hcb : t.callback = .openingDone)
    (hm : s.cfg.autoClosingMode ≠ "none") :
    step hw s ⟨now, .timeout t.handle⟩ =
      { s with
        clock := now
        currentDoorState := .OPEN
        timers := [⟨s.nextHandle, .autoClose, s.cfg.autoClosingDelay * 1000, now⟩]
        nextHandle := s.nextHandle + 1
        currentTimeOuts := s.currentTimeOuts ++ [s.nextHandle] } := by
  rw [step_timeout_single hw s t now ht, hcb]
  simp [runCallback, hm, settle, setTimeout]

theorem fire_closingDone (hw : Nat → Bool) (s : Engine) (t : Timer) (now : Int)
    (ht : s.timers = [t]) (hcb : t.callback = .closingDone) :
    step hw s ⟨now, .timeout t.handle⟩ =
      { s with clock := now, timers := [], currentDoorState := .CLOSED } := by
  rw [step_timeout_single hw s t now ht, hcb]
  simp [runCallback, settle]

theorem fire_autoClose_self (hw : Nat → Bool) (s : Engine) (t : Timer) (now : Int)
    (ht : s.timers = [t]) (hcb : t.callback = .autoClose)
    (hm : s.cfg.autoClosingMode ≠ "force") :
    step hw s ⟨now, .timeout t.handle⟩ =
      { s with
        clock := now
        currentDoorState := .CLOSING
        targetDoorState := .CLOSED
        timers := [⟨s.nextHandle, .closingDone, s.cfg.simulateTimeClosing * 1000, now⟩]
        nextHandle := s.nextHandle + 1
        currentTimeOuts := s.currentTimeOuts ++ [s.nextHandle] } := by
  rw [step_timeout_single hw s t now ht, hcb]
  simp [runCallback, hm, settle, simulateGarageDoorClosing, setTimeout]

theorem fire_autoClose_force (hw : Nat → Bool) (s : Engine) (t : Timer) (now : Int)
    (ht : s.timers = [t]) (hcb : t.callback = .autoClose)
    (hm : s.cfg.autoClosingMode = "force") :
    step hw s ⟨now, .timeout t.handle⟩ =
      settle (closeGarageDoor hw false { s with clock := now, timers := [] }) := by
  rw [step_timeout_single hw s t now ht, hcb]
  simp [runCallback, hm]

/-- The state after the auto-close timer fired in mode `force` on a driver that does not
fail: an unforced `closeGarageDoor`. -/
theorem fire_autoClose_force_fields (s : Engine) (t : Timer) (now : Int) (hinv : Inv s)
    (ht : s.timers = [t]) (hcb : t.callback = .autoClose)
    (hm : s.cfg.autoClosingMode = "force") :
    (step hwOk s ⟨now, .timeout t.handle⟩).currentDoorState = CurrentDoorState.CLOSING ∧
    (step hwOk s ⟨now, .timeout t.handle⟩).cfg = s.cfg ∧
    (step hwOk s ⟨now, .timeout t.handle⟩).targetDoorState = TargetDoorState.CLOSED ∧
    (step hwOk s ⟨now, .timeout t.handle⟩).lastOpened = s.lastOpened ∧
    (step hwOk s ⟨now, .timeout t.handle⟩).lastClosed = some now ∧
    (step hwOk s ⟨now, .timeout t.handle⟩).pulses = s.pulses + 1 ∧
    (step hwOk s ⟨now, .timeout t.handle⟩).nextHandle = s.nextHandle + 1 ∧
    ∃ k, (step hwOk s ⟨now, .timeout t.handle⟩).timers =
      [⟨s.nextHandle, .closingDone, s.cfg.simulateTimeClosing * 1000, k⟩] := by
  rw [fire_autoClose_force hwOk s t now ht hcb hm]
  have hb : Inv { s with clock := (now : ℚ), timers := [] } :=
    ⟨by simp, hinv.issued, Or.inl rfl, hinv.named⟩
  obtain ⟨a, ha⟩ := returned_ok _
    (closeGarageDoor_hwOk false { s with clock := (now : ℚ), timers := [] })
  obtain ⟨h1, h2, h3, h4, h5, h6, -, h8, k, h9⟩ :=
    closeGarageDoor_ok_fields hwOk false _ a hb ha
  rw [ha]
  simp only [settle]
  rw [closingCorrection_normal] at h5 h9
  have hn : newDate { s with clock := (now : ℚ), timers := [] } = now := by simp [newDate]
  rw [hn] at h5
  exact ⟨h1, h2, h3, h4, h5, h6, h8, k, h9⟩

theorem onSet_open_hwOk (s : Engine) (now : Int)
    (hcur : s.currentDoorState = CurrentDoorState.CLOSED ∨
            s.currentDoorState = CurrentDoorState.OPEN) :
    returned (onSet hwOk .OPEN { s with clock := now }) = true := by
  rw [onSet_open hwOk false { s with clock := (now : ℚ) } (Or.inl ⟨rfl, hcur⟩)]
  exact openGarageDoor_hwOk _ _

/-- A normal open from `CLOSED` on a driver that does not fail, then the firing of the
opening timer, in a mode that arms the auto-close. -/
theorem opened_then_armed (s : Engine) (t0 t1 : Int) (hinv : Inv s)
    (hcur : s.currentDoorState = CurrentDoorState.CLOSED)
    (hm : s.cfg.autoClosingMode ≠ "none") :
    ((step hwOk s ⟨t0, .setTarget .OPEN⟩).currentDoorState = CurrentDoorState.OPENING ∧
     (step hwOk s ⟨t0, .setTarget .OPEN⟩).pulses = s.pulses + 1 ∧
     ∃ k, (step hwOk s ⟨t0, .setTarget .OPEN⟩).timers =
       [⟨s.nextHandle, .openingDone, s.cfg.simulateTimeOpening * 1000, k⟩]) ∧
    (step hwOk (step hwOk s ⟨t0, .setTarget .OPEN⟩) ⟨t1, .timeout s.nextHandle⟩) =
      { step hwOk s ⟨t0, .setTarget .OPEN⟩ with
        clock := t1
        currentDoorState := .OPEN
        timers := [⟨s.nextHandle + 1, .autoClose, s.cfg.autoClosingDelay * 1000, t1⟩]
        nextHandle := s.nextHandle + 2
        currentTimeOuts :=
          (step hwOk s ⟨t0, .setTarget .OPEN⟩).currentTimeOuts ++ [s.nextHandle + 1] } := by
  obtain ⟨a1, a2, -, -, -, a6, a7, k, a8⟩ :=
    step_open_accepted hwOk false s t0 hinv (Or.inl ⟨rfl, Or.inl hcur⟩)
      (onSet_open_hwOk s t0 (Or.inl hcur))
  rw [openingCorrection_normal] at a8
  simp only [Bool.false_eq_true, if_false] at a6
  refine ⟨⟨a1, a6, k, a8⟩, ?_⟩
  have h : step hwOk (step hwOk s ⟨t0, .setTarget .OPEN⟩) ⟨t1, .timeout s.nextHandle⟩ = _ :=
    fire_openingDone_arm hwOk (step hwOk s ⟨t0, .setTarget .OPEN⟩)
      ⟨s.nextHandle, .openingDone, s.cfg.simulateTimeOpening * 1000, k⟩ t1 a8 rfl
      (by rw [a2]; exact hm)
  rw [h]
  simp [a7, a2]

theorem idle_run (hw : Nat → Bool) (fs : List Event) :
    ∀ s : Engine, s.timers = [] → (∀ e ∈ fs, e.isSet = false) →
      (run hw s fs).currentDoorState = s.currentDoorState ∧ (run hw s fs).timers = [] := by
  induction fs with
  | nil => intro s h _; exact ⟨rfl, h⟩
  | cons e fs ih =>
    intro s h hfs
    have he : e.isSet = false := hfs e (List.mem_cons_self _ _)
    have hrest : ∀ x ∈ fs, x.isSet = false := fun x hx => hfs x (List.mem_cons_of_mem _ hx)
    have hstep : (step hw s e).currentDoorState = s.currentDoorState ∧
        (step hw s e).timers = [] := by
      cases hr : e.req with
      | getTarget => simp [step, hr, onGet, h]
      | setTarget v => simp [Event.isSet, hr] at he
      | timeout n => simp [step, hr, h]
    have h2 := ih (step hw s e) hstep.2 hrest
    exact ⟨h2.1.trans hstep.1, h2.2⟩

/-- The whole cycle from `CLOSED` in a mode that arms the auto-close, on a driver that does
not fail: the door ends `CLOSED` with no live timer, after two pulses in mode `force` and
one pulse in any other mode. -/
theorem cycle_end (s : Engine) (t0 t1 t2 t3 : Int) (hinv : Inv s)
    (hcur : s.currentDoorState = CurrentDoorState.CLOSED)
    (hm : s.cfg.autoClosingMode ≠ "none") :
    (run hwOk s [⟨t0, .setTarget .OPEN⟩, ⟨t1, .timeout s.nextHandle⟩,
      ⟨t2, .timeout (s.nextHandle + 1)⟩, ⟨t3, .timeout (s.nextHandle + 2)⟩]).currentDoorState =
        CurrentDoorState.CLOSED ∧
    (run hwOk s [⟨t0, .setTarget .OPEN⟩, ⟨t1, .timeout s.nextHandle⟩,
      ⟨t2, .timeout (s.nextHandle + 1)⟩, ⟨t3, .timeout (s.nextHandle + 2)⟩]).timers = [] ∧
    (run hwOk s [⟨t0, .setTarget .OPEN⟩, ⟨t1, .timeout s.nextHandle⟩,
      ⟨t2, .timeout (s.nextHandle + 1)⟩, ⟨t3, .timeout (s.nextHandle + 2)⟩]).pulses =
        s.pulses + (if s.cfg.autoClosingMode = "force" then 2 else 1) := by
  obtain ⟨⟨-, a2, -⟩, a4⟩ := opened_then_armed s t0 t1 hinv hcur hm
  have hinv2 : Inv (step hwOk (step hwOk s ⟨t0, .setTarget .OPEN⟩) ⟨t1, .timeout s.nextHandle⟩) :=
    inv_step hwOk _ _ (inv_step hwOk _ _ hinv)
  have c1 : (step hwOk (step hwOk s ⟨t0, .setTarget .OPEN⟩) ⟨t1, .timeout s.nextHandle⟩).cfg
      = s.cfg := (frame_step hwOk _ _).cfg.trans (frame_step hwOk s _).cfg
  simp only [run, List.foldl]
  generalize step hwOk (step hwOk s ⟨t0, .setTarget .OPEN⟩) ⟨t1, .timeout s.nextHandle⟩ = s2
    at a4 hinv2 c1 ⊢
  have ht : s2.timers = [⟨s.nextHandle + 1, .autoClose, s.cfg.autoClosingDelay * 1000, t1⟩] := by
    rw [a4]
  have hn : s2.nextHandle = s.nextHandle + 2 := by rw [a4]
  have hp : s2.pulses = s.pulses + 1 := by rw [a4]; exact a2
  by_cases hf : s.cfg.autoClosingMode = "force"
  · obtain ⟨-, -, -, -, -, b6, -, k3, b8⟩ :=
      fire_autoClose_force_fields s2
        ⟨s.nextHandle + 1, .autoClose, s.cfg.autoClosingDelay * 1000, t1⟩ t2
        hinv2 ht rfl (by rw [c1]; exact hf)
    rw [hn] at b8
    have h4 : step hwOk (step hwOk s2 ⟨t2, .timeout (s.nextHandle + 1)⟩)
        ⟨t3, .timeout (s.nextHandle + 2)⟩ = _ :=
      fire_closingDone hwOk _ ⟨s.nextHandle + 2, .closingDone, _, k3⟩ t3 b8 rfl
    rw [h4]
    refine ⟨rfl, rfl, ?_⟩
    simp only [hf, if_true]
    show (step hwOk s2 ⟨t2, .timeout (s.nextHandle + 1)⟩).pulses = _
    rw [b6, hp]
  · have h3 : step hwOk s2 ⟨t2, .timeout (s.nextHandle + 1)⟩ = _ :=
      fire_autoClose_self hwOk s2
        ⟨s.nextHandle + 1, .autoClose, s.cfg.autoClosingDelay * 1000, t1⟩ t2 ht rfl
        (by rw [c1]; exact hf)
    have h4 : step hwOk (step hwOk s2 ⟨t2, .timeout (s.nextHandle + 1)⟩)
        ⟨t3, .timeout (s.nextHandle + 2)⟩ = _ :=
      fire_closingDone hwOk _ ⟨s.nextHandle + 2, .closingDone,
        s2.cfg.simulateTimeClosing * 1000, t2⟩ t3 (by rw [h3, hn]) rfl
    rw [h4]
    refine ⟨rfl, rfl, ?_⟩
    simp only [hf, if_false]
    show (step hwOk s2 ⟨t2, .timeout (s.nextHandle + 1)⟩).pulses = _
    rw [h3]
    exact hp

/-- **C1.** Along every sequence of requests and timer firings from the constructed state
(door `CLOSED`), the door state is one of `CLOSED`, `OPENING`, `OPEN`, `CLOSING`, and every
turn either keeps it or takes an edge of the state machine; in particular a turn that
leaves the door `OPEN` started from `OPEN` or `OPENING`, and a turn that leaves it `CLOSED`
started from `CLOSED` or `CLOSING`. Forced interruptions are among the sequences. -/
theorem door_state_follows_edges (cfg : Config) (hw : Nat → Bool) (es : List Event)
    (e : Event) :
    let s := run hw (init cfg) es
    let s2 := step hw s e
    (init cfg).currentDoorState = CurrentDoorState.CLOSED ∧
    (s2.currentDoorState = CurrentDoorState.CLOSED ∨
     s2.currentDoorState = CurrentDoorState.OPENING ∨
     s2.currentDoorState = CurrentDoorState.OPEN ∨
     s2.currentDoorState = CurrentDoorState.CLOSING) ∧
    (s2.currentDoorState = s.currentDoorState ∨
     allowedEdge s.currentDoorState s2.currentDoorState = true) ∧
    (s2.currentDoorState = CurrentDoorState.OPEN →
      s.currentDoorState = CurrentDoorState.OPEN ∨
      s.currentDoorState = CurrentDoorState.OPENING) ∧
    (s2.currentDoorState = CurrentDoorState.CLOSED →
      s.currentDoorState = CurrentDoorState.CLOSED ∨
      s.currentDoorState = CurrentDoorState.CLOSING) := by
  intro s s2
  have hinv : Inv s := inv_run hw es _ (inv_init cfg)
  have hg : GoodStep s s2 := goodStep_step hw s e hinv
  have hn := hg.1.named
  have he := hg.2
  refine ⟨rfl, ?_, he, ?_, ?_⟩
  · cases h : s2.currentDoorState <;> simp_all
  · intro h
    rw [h] at he
    cases hc : s.currentDoorState <;> rw [hc] at he <;> simp_all [allowedEdge]
  · intro h
    rw [h] at he
    cases hc : s.currentDoorState <;> rw [hc] at he <;> simp_all [allowedEdge]

/-- **C2.** In every reachable state at most one motion-completion timer and at most one
auto-close timer are live. When a set-target request that the transition table handles
returns normally, exactly one timer is live afterwards, the motion timer it scheduled, and
no timer that was live before the request (for a close while `OPENING`: the pending
opening timer) is live in any later state, so none of them can fire. -/
theorem one_timer_live (cfg : Config) (hw : Nat → Bool) (es : List Event)
    (value : TargetDoorState) (now : Int) (fs : List Event) :
    let s := run hw (init cfg) es
    let s2 := step hw s ⟨now, .setTarget value⟩
    ((s.timers.filter (fun t => t.callback.isMotion)).length ≤ 1 ∧
     (s.timers.filter (fun t => !t.callback.isMotion)).length ≤ 1) ∧
    (inTable value s.currentDoorState = true →
     returned (onSet hw value { s with clock := now }) = true →
       (∃ t2, s2.timers = [t2] ∧ t2.callback.isMotion = true ∧ t2.handle = s.nextHandle) ∧
       ∀ t ∈ s.timers, ∀ t3 ∈ (run hw s2 fs).timers, t3.handle ≠ t.handle) := by
  intro s s2
  have hinv : Inv s := inv_run hw es _ (inv_init cfg)
  refine ⟨⟨length_filter_single_le _ _ hinv.single, length_filter_single_le _ _ hinv.single⟩, ?_⟩
  intro hin hret
  obtain ⟨a, ha, hn, t2, ht2, hm, hh⟩ :=
    accepted_onSet hw value { s with clock := now } (inv_clock s _ hinv) hin hret
  have hs2 : s2 = { a with targetDoorState := value } := by
    show step hw s ⟨now, .setTarget value⟩ = _
    simp only [step, ha, storeTarget]
  have hs2t : s2.timers = [t2] := by rw [hs2]; exact ht2
  have hs2n : s2.nextHandle = s.nextHandle + 1 := by rw [hs2]; exact hn
  refine ⟨⟨t2, hs2t, hm, hh⟩, ?_⟩
  intro t ht t3 ht3
  have hlt : t.handle < s.nextHandle := hinv.issued _ (hinv.tracked t ht)
  have hge : s.nextHandle ≤ t3.handle := by
    rcases (frame_run hw fs s2).timers t3 ht3 with h | h
    · rw [hs2t, List.mem_singleton] at h
      rw [h]
      exact Nat.le_of_eq hh.symm
    · omega
  omega

/-- A run on which C2 applies: an open from the constructed state, then a close six seconds
later while the door is `OPENING`. The close leaves one live timer, the closing timer with
handle 1; the opening timer (handle 0) is gone. -/
theorem one_timer_live_witness :
    (run hwOk (init (sampleConfig "none" 30)) [⟨1000, .setTarget .OPEN⟩]).timers.map
        (fun t => (t.handle, t.callback)) = [(0, Callback.openingDone)] ∧
    (∃ t2, (step hwOk (run hwOk (init (sampleConfig "none" 30)) [⟨1000, .setTarget .OPEN⟩])
        ⟨7000, .setTarget .CLOSED⟩).timers = [t2] ∧ t2.callback.isMotion = true ∧
        t2.handle = 1) :=
  ⟨by decide!,
   ((one_timer_live (sampleConfig "none" 30) hwOk [⟨1000, .setTarget .OPEN⟩] .CLOSED 7000 []).2
      (by decide!) (by decide!)).1⟩

/-- **C3.** Forced reclose duration. After a normal open (door `CLOSED` or `OPEN`) accepted
at `t0`, a close request accepted at `t1` with elapsed time `e = (t1 - t0) / 1000` seconds,
`e < simulateTimeOpening`, finds the door `OPENING`, leaves it `CLOSING` and schedules
exactly one timer, the closing timer, with delay `(e / simulateTimeOpening) *
simulateTimeClosing` seconds (the delay passed to `setTimeout` is that times 1000). -/
theorem forced_reclose_duration (cfg : Config) (hw : Nat → Bool) (es : List Event)
    (t0 t1 : Int)
    (hcur : (run hw (init cfg) es).currentDoorState = CurrentDoorState.CLOSED ∨
            (run hw (init cfg) es).currentDoorState = CurrentDoorState.OPEN)
    (hopen : returned (onSet hw .OPEN { run hw (init cfg) es with clock := t0 }) = true)
    (hclose : returned (onSet hw .CLOSED
        { step hw (run hw (init cfg) es) ⟨t0, .setTarget .OPEN⟩ with clock := t1 }) = true)
    (he : ((t1 - t0 : Int) : ℚ) / 1000 < cfg.simulateTimeOpening) :
    let s1 := step hw (run hw (init cfg) es) ⟨t0, .setTarget .OPEN⟩
    let s2 := step hw s1 ⟨t1, .setTarget .CLOSED⟩
    s1.currentDoorState = CurrentDoorState.OPENING ∧
    s2.currentDoorState = CurrentDoorState.CLOSING ∧
    ∃ k, s2.timers = [⟨s1.nextHandle, .closingDone,
      ((((t1 - t0 : Int) : ℚ) / 1000) / cfg.simulateTimeOpening * cfg.simulateTimeClosing)
        * 1000, k⟩] := by
  intro s1 s2
  have hinv : Inv (run hw (init cfg) es) := inv_run hw es _ (inv_init cfg)
  have hcfg := run_cfg hw cfg es
  obtain ⟨a1, a2, -, -, a5, -, -, -⟩ :=
    step_open_accepted hw false _ t0 hinv (Or.inl ⟨rfl, hcur⟩) hopen
  have hinv1 : Inv s1 := inv_step hw _ _ hinv
  obtain ⟨b1, -, -, -, -, -, -, k, b8⟩ :=
    step_close_accepted hw true s1 t1 hinv1 (Or.inr ⟨rfl, a1⟩) hclose
  refine ⟨a1, b1, k, ?_⟩
  rw [b8]
  have e1 : s1.lastOpened = some t0 := by rw [a5, openingCorrection_normal]
  have e2 : s1.cfg = cfg := a2.trans hcfg
  rw [e1, e2, closingCorrection_forced cfg t1 t0 he]

/-- The numbers of C3: with both durations 15 seconds, a close six seconds after the open
schedules the closing timer with a delay of 6000 milliseconds. -/
theorem forced_reclose_duration_witness :
    (step hwOk (init (sampleConfig "none" 30)) ⟨1000, .setTarget .OPEN⟩).currentDoorState =
      CurrentDoorState.OPENING ∧
    (step hwOk (step hwOk (init (sampleConfig "none" 30)) ⟨1000, .setTarget .OPEN⟩)
      ⟨7000, .setTarget .CLOSED⟩).currentDoorState = CurrentDoorState.CLOSING ∧
    ∃ k, (step hwOk (step hwOk (init (sampleConfig "none" 30)) ⟨1000, .setTarget .OPEN⟩)
      ⟨7000, .setTarget .CLOSED⟩).timers = [⟨1, .closingDone, 6000, k⟩] := by
  have h := forced_reclose_duration (sampleConfig "none" 30) hwOk [] 1000 7000
    (Or.inl rfl) (by decide!) (by decide!) (by decide!)
  refine ⟨h.1, h.2.1, ?_⟩
  obtain ⟨k, hk⟩ := h.2.2
  refine ⟨k, ?_⟩
  rw [show (6000 : ℚ) = ((((7000 - 1000 : Int) : ℚ) / 1000) /
    (sampleConfig "none" 30).simulateTimeOpening *
    (sampleConfig "none" 30).simulateTimeClosing) * 1000 by decide!]
  exact hk

/-- **C4.** Forced reopen duration. After a normal close (door `OPEN` or `CLOSED`) accepted
at `t0`, an open request accepted at `t1` with elapsed time `e = (t1 - t0) / 1000` seconds,
`e < simulateTimeClosing`, finds the door `CLOSING`, sets it `OPENING` and schedules exactly
one timer, the opening timer, with delay `(e / simulateTimeClosing) * simulateTimeOpening`
seconds. -/
theorem forced_reopen_duration (cfg : Config) (hw : Nat → Bool) (es : List Event)
    (t0 t1 : Int)
    (hcur : (run hw (init cfg) es).currentDoorState = CurrentDoorState.OPEN ∨
            (run hw (init cfg) es).currentDoorState = CurrentDoorState.CLOSED)
    (hclose : returned (onSet hw .CLOSED { run hw (init cfg) es with clock := t0 }) = true)
    (hopen : returned (onSet hw .OPEN
        { step hw (run hw (init cfg) es) ⟨t0, .setTarget .CLOSED⟩ with clock := t1 }) = true)
    (he : ((t1 - t0 : Int) : ℚ) / 1000 < cfg.simulateTimeClosing) :
    let s1 := step hw (run hw (init cfg) es) ⟨t0, .setTarget .CLOSED⟩
    let s2 := step hw s1 ⟨t1, .setTarget .OPEN⟩
    s1.currentDoorState = CurrentDoorState.CLOSING ∧
    s2.currentDoorState = CurrentDoorState.OPENING ∧
    ∃ k, s2.timers = [⟨s1.nextHandle, .openingDone,
      ((((t1 - t0 : Int) : ℚ) / 1000) / cfg.simulateTimeClosing * cfg.simulateTimeOpening)
        * 1000, k⟩] := by
  intro s1 s2
  have hinv : Inv (run hw (init cfg) es) := inv_run hw es _ (inv_init cfg)
  have hcfg := run_cfg hw cfg es
  obtain ⟨a1, a2, -, -, a5, -, -, -⟩ :=
    step_close_accepted hw false _ t0 hinv (Or.inl ⟨rfl, hcur⟩) hclose
  have hinv1 : Inv s1 := inv_step hw _ _ hinv
  obtain ⟨b1, -, -, -, -, -, -, k, b8⟩ :=
    step_open_accepted hw true s1 t1 hinv1 (Or.inr ⟨rfl, a1⟩) hopen
  refine ⟨a1, b1, k, ?_⟩
  rw [b8]
  have e1 : s1.lastClosed = some t0 := by rw [a5, closingCorrection_normal]
  have e2 : s1.cfg = cfg := a2.trans hcfg
  rw [e1, e2, openingCorrection_forced cfg t1 t0 he]

/-- A run on which C4 applies: opening 20 and closing 10 seconds, door opened and fully
open, a close at 40 s and an open 4 s later. The opening timer is scheduled with
`(4 / 10) * 20 = 8` seconds. -/
theorem forced_reopen_duration_witness :
    ∃ k, (run hwOk (init { sampleConfig "none" 30 with
            simulateTimeOpening := 20, simulateTimeClosing := 10 })
          [⟨1000, .setTarget .OPEN⟩, ⟨22000, .timeout 0⟩, ⟨40000, .setTarget .CLOSED⟩,
           ⟨44000, .setTarget .OPEN⟩]).timers = [⟨2, .openingDone, 8000, k⟩] := by
  obtain ⟨k, hk⟩ := (forced_reopen_duration
    { sampleConfig "none" 30 with simulateTimeOpening := 20, simulateTimeClosing := 10 }
    hwOk [⟨1000, .setTarget .OPEN⟩, ⟨22000, .timeout 0⟩] 40000 44000
    (Or.inl (by decide!)) (by decide!) (by decide!) (by decide!)).2.2
  refine ⟨k, ?_⟩
  rw [show (8000 : ℚ) = ((((44000 - 40000 : Int) : ℚ) / 1000) / 10 * 20) * 1000 by decide!,
    show (2 : Nat) = (step hwOk (run hwOk (init { sampleConfig "none" 30 with
            simulateTimeOpening := 20, simulateTimeClosing := 10 })
          [⟨1000, .setTarget .OPEN⟩, ⟨22000, .timeout 0⟩])
          ⟨40000, .setTarget .CLOSED⟩).nextHandle by decide!]
  exact hk

/-- **C5.** A forced interruption on positive nominal durations and a non-negative elapsed
time: the call of `openGarageDoor` (resp. `closeGarageDoor`) with `force`, when it returns,
schedules one timer whose duration `d` (seconds) satisfies `0 ≤ d ≤ simulateTimeOpening`
(resp. `simulateTimeClosing`); and when the elapsed time since `lastClosed` (resp.
`lastOpened`) is at least the nominal duration of the interrupted motion, `d` is the full
nominal duration and the new timestamp is the unshifted `now`. -/
theorem forced_duration_bounds (cfg : Config) (hw : Nat → Bool) (es : List Event) (now : Int)
    (hO : 0 < cfg.simulateTimeOpening) (hC : 0 < cfg.simulateTimeClosing) :
    let s : Engine := { run hw (init cfg) es with clock := now }
    (returned (openGarageDoor hw true s) = true → (∀ lc, s.lastClosed = some lc → lc ≤ now) →
      ∃ d k, (settle (openGarageDoor hw true s)).timers =
          [⟨s.nextHandle, .openingDone, d * 1000, k⟩] ∧
        0 ≤ d ∧ d ≤ cfg.simulateTimeOpening ∧
        (∀ lc, s.lastClosed = some lc → cfg.simulateTimeClosing ≤ ((now - lc : Int) : ℚ) / 1000 →
          d = cfg.simulateTimeOpening ∧
          (settle (openGarageDoor hw true s)).lastOpened = some now)) ∧
    (returned (closeGarageDoor hw true s) = true → (∀ lo, s.lastOpened = some lo → lo ≤ now) →
      ∃ d k, (settle (closeGarageDoor hw true s)).timers =
          [⟨s.nextHandle, .closingDone, d * 1000, k⟩] ∧
        0 ≤ d ∧ d ≤ cfg.simulateTimeClosing ∧
        (∀ lo, s.lastOpened = some lo → cfg.simulateTimeOpening ≤ ((now - lo : Int) : ℚ) / 1000 →
          d = cfg.simulateTimeClosing ∧
          (settle (closeGarageDoor hw true s)).lastClosed = some now)) := by
  intro s
  have hinv : Inv s := inv_clock _ _ (inv_run hw es _ (inv_init cfg))
  have hcfg : s.cfg = cfg := run_cfg hw cfg es
  have hnow : newDate s = now := newDate_clock _ now
  constructor
  · intro hret hnn
    obtain ⟨a, ha⟩ := returned_ok _ hret
    obtain ⟨-, -, -, -, h5, -, -, -, k, h9⟩ := openGarageDoor_ok_fields hw true s a hinv ha
    rw [hnow, hcfg] at h5 h9
    have hb := openingCorrection_bounds cfg now s.lastClosed hO hC hnn
    refine ⟨_, k, by rw [ha]; exact h9, hb.1, hb.2, ?_⟩
    intro lc hlc hlate
    rw [ha, hlc, openingCorrection_late cfg now lc hlate]
    refine ⟨rfl, ?_⟩
    simp only [settle]
    rw [h5, hlc, openingCorrection_late cfg now lc hlate]
  · intro hret hnn
    obtain ⟨a, ha⟩ := returned_ok _ hret
    obtain ⟨-, -, -, -, h5, -, -, -, k, h9⟩ := closeGarageDoor_ok_fields hw true s a hinv ha
    rw [hnow, hcfg] at h5 h9
    have hb := closingCorrection_bounds cfg now s.lastOpened hO hC hnn
    refine ⟨_, k, by rw [ha]; exact h9, hb.1, hb.2, ?_⟩
    intro lo hlo hlate
    rw [ha, hlo, closingCorrection_late cfg now lo hlate]
    refine ⟨rfl, ?_⟩
    simp only [settle]
    rw [h5, hlo, closingCorrection_late cfg now lo hlate]

/-- The inputs of `forced_duration_bounds` exist: after an open at 1 s and a close at 7 s
(durations 15 s), a forced `openGarageDoor` at 9 s schedules a duration within bounds. -/
theorem forced_duration_bounds_witness :
    ∃ d k, (settle (openGarageDoor hwOk true
        { run hwOk (init (sampleConfig "none" 30))
            [⟨1000, .setTarget .OPEN⟩, ⟨7000, .setTarget .CLOSED⟩] with clock := (9000 : Int) })).timers =
          [⟨2, .openingDone, d * 1000, k⟩] ∧ 0 ≤ d ∧ d ≤ 15 := by
  obtain ⟨d, k, h1, h2, h3, -⟩ := (forced_duration_bounds (sampleConfig "none" 30) hwOk
    [⟨1000, .setTarget .OPEN⟩, ⟨7000, .setTarget .CLOSED⟩] 9000 (by decide!) (by decide!)).1
    (by decide!)
    (fun lc h => by
      have e : ({ run hwOk (init (sampleConfig "none" 30))
            [⟨1000, .setTarget .OPEN⟩, ⟨7000, .setTarget .CLOSED⟩] with
              clock := ((9000 : Int) : ℚ) } : Engine).lastClosed = some 1000 := by decide!
      rw [e] at h
      cases h
      decide)
  refine ⟨d, k, ?_, h2, h3⟩
  rw [h1]
  have e : ({ run hwOk (init (sampleConfig "none" 30))
        [⟨1000, .setTarget .OPEN⟩, ⟨7000, .setTarget .CLOSED⟩] with
          clock := ((9000 : Int) : ℚ) } : Engine).nextHandle = 2 := by decide!
  rw [e]

/-- **C6.** Mode `force`, driver that does not fail, no external command after a normal open
from `CLOSED`. The open schedules the opening timer with `simulateTimeOpening` seconds; its
firing (at `t1`) sets the door `OPEN` and arms, at that instant, the auto-close timer with
`autoClosingDelay` seconds, due `autoClosingDelay` seconds after `t1`; the firing of that one (at `t2`) runs the unforced close: door
`CLOSING`, one pulse, `lastClosed` stamped, closing timer with the full
`simulateTimeClosing` seconds; the firing of the closing timer sets the door `CLOSED` and
leaves no live timer. -/
theorem force_auto_close_cycle (cfg : Config) (es : List Event) (t0 t1 t2 t3 : Int)
    (hm : cfg.autoClosingMode = "force")
    (hcur : (run hwOk (init cfg) es).currentDoorState = CurrentDoorState.CLOSED) :
    let s := run hwOk (init cfg) es
    let n := s.nextHandle
    let s1 := step hwOk s ⟨t0, .setTarget .OPEN⟩
    let s2 := step hwOk s1 ⟨t1, .timeout n⟩
    let s3 := step hwOk s2 ⟨t2, .timeout (n + 1)⟩
    let s4 := step hwOk s3 ⟨t3, .timeout (n + 2)⟩
    (s1.currentDoorState = CurrentDoorState.OPENING ∧
      ∃ k, s1.timers = [⟨n, .openingDone, cfg.simulateTimeOpening * 1000, k⟩]) ∧
    (s2.currentDoorState = CurrentDoorState.OPEN ∧
      s2.timers = [⟨n + 1, .autoClose, cfg.autoClosingDelay * 1000, t1⟩] ∧
      (∀ t ∈ s2.timers, t.due = t1 + cfg.autoClosingDelay * 1000) ∧
      s2.pulses = s1.pulses) ∧
    (s3.currentDoorState = CurrentDoorState.CLOSING ∧
      (∃ k, s3.timers = [⟨n + 2, .closingDone, cfg.simulateTimeClosing * 1000, k⟩]) ∧
      s3.pulses = s2.pulses + 1 ∧ s3.lastClosed = some t2) ∧
    (s4.currentDoorState = CurrentDoorState.CLOSED ∧ s4.timers = [] ∧
      s4.targetDoorState = TargetDoorState.CLOSED) := by
  intro s n s1 s2 s3 s4
  have hinv : Inv s := inv_run hwOk es _ (inv_init cfg)
  have hcfg : s.cfg = cfg := run_cfg hwOk cfg es
  have hne : s.cfg.autoClosingMode ≠ "none" := by rw [hcfg, hm]; decide
  obtain ⟨⟨a1, -, k, a3⟩, a4⟩ := opened_then_armed s t0 t1 hinv hcur hne
  have hs2 : s2 = _ := a4
  have hinv2 : Inv s2 := inv_step hwOk _ _ (inv_step hwOk _ _ hinv)
  have c1 : s2.cfg = cfg := ((frame_step hwOk s1 _).cfg.trans (frame_step hwOk s _).cfg).trans hcfg
  have t2s : s2.timers = [⟨n + 1, .autoClose, cfg.autoClosingDelay * 1000, t1⟩] := by
    rw [hs2, ← hcfg]
  have n2 : s2.nextHandle = n + 2 := by rw [hs2]
  obtain ⟨b1, b2, b3, -, b5, b6, -, k3, b8⟩ :=
    fire_autoClose_force_fields s2 ⟨n + 1, .autoClose, cfg.autoClosingDelay * 1000, t1⟩ t2
      hinv2 t2s rfl (by rw [c1]; exact hm)
  rw [n2, c1] at b8
  have hs4 : s4 = _ :=
    fire_closingDone hwOk s3 ⟨n + 2, .closingDone, cfg.simulateTimeClosing * 1000, k3⟩ t3 b8 rfl
  refine ⟨⟨a1, k, by rw [← hcfg]; exact a3⟩,
    ⟨by rw [hs2], t2s, by rw [t2s]; simp [Timer.due], by rw [hs2]⟩,
    ⟨b1, ⟨k3, b8⟩, b6, b5⟩, ?_⟩
  rw [hs4]
  exact ⟨rfl, rfl, b3⟩

/-- The cycle of C6 on the default durations with `autoClosingDelay = 30`: the opening
timer fires at 17 s, the auto-close timer is armed at that instant with 30000 ms, so it is
due at 47 s, thirty seconds after `OPEN` was reached; the door ends `CLOSED`. -/
theorem force_auto_close_cycle_witness :
    (step hwOk (step hwOk (init (sampleConfig "force" 30)) ⟨1000, .setTarget .OPEN⟩)
        ⟨17000, .timeout 0⟩).timers = [⟨1, .autoClose, 30000, 17000⟩] ∧
    (run hwOk (init (sampleConfig "force" 30)) [⟨1000, .setTarget .OPEN⟩, ⟨17000, .timeout 0⟩,
        ⟨47000, .timeout 1⟩, ⟨63000, .timeout 2⟩]).currentDoorState = CurrentDoorState.CLOSED ∧
    (run hwOk (init (sampleConfig "force" 30)) [⟨1000, .setTarget .OPEN⟩, ⟨17000, .timeout 0⟩,
        ⟨47000, .timeout 1⟩, ⟨63000, .timeout 2⟩]).timers = [] := by
  have h := force_auto_close_cycle (sampleConfig "force" 30) [] 1000 17000 47000 63000 rfl rfl
  refine ⟨?_, h.2.2.2.1, h.2.2.2.2.1⟩
  rw [show (30000 : ℚ) = (sampleConfig "force" 30).autoClosingDelay * 1000 by decide!]
  exact h.2.1.2.1

/-- **C7.** Mode `none`: in every run, when the opening timer fires, the door is set `OPEN`
and no timer is armed, so no timer is live; and through every later sequence of events that
holds no set-target request (timer events, reads) the door stays `OPEN` and no timer
becomes live. -/
theorem open_stays_without_auto_close (cfg : Config) (hw : Nat → Bool) (es fs : List Event)
    (t : Timer) (now : Int)
    (hm : cfg.autoClosingMode = "none")
    (ht : t ∈ (run hw (init cfg) es).timers) (hcb : t.callback = .openingDone)
    (hfs : ∀ e ∈ fs, e.isSet = false) :
    let s2 := step hw (run hw (init cfg) es) ⟨now, .timeout t.handle⟩
    s2.currentDoorState = CurrentDoorState.OPEN ∧ s2.timers = [] ∧
    (run hw s2 fs).currentDoorState = CurrentDoorState.OPEN ∧ (run hw s2 fs).timers = [] := by
  intro s2
  have hinv : Inv (run hw (init cfg) es) := inv_run hw es _ (inv_init cfg)
  have hcfg := run_cfg hw cfg es
  have h1 : (run hw (init cfg) es).timers = [t] := by
    rcases hinv.single with h | ⟨t0, h, -⟩
    · rw [h] at ht
      simp at ht
    · rw [h] at ht
      rw [h, List.mem_singleton.mp ht]
  have hs2 : s2 = _ := fire_openingDone_none hw _ t now h1 hcb (by rw [hcfg]; exact hm)
  have a : s2.currentDoorState = CurrentDoorState.OPEN := by rw [hs2]
  have b : s2.timers = [] := by rw [hs2]
  obtain ⟨c, d⟩ := idle_run hw fs s2 b hfs
  exact ⟨a, b, c.trans a, d⟩

/-- A run on which C7 applies: mode `none`, an open at 1 s, the opening timer fires at 17 s;
a stale timer event and a read later the door is still `OPEN`. -/
theorem open_stays_without_auto_close_witness :
    (run hwOk (init (sampleConfig "none" 30)) [⟨1000, .setTarget .OPEN⟩]).timers.map
        (fun t => t.callback) = [Callback.openingDone] ∧
    (run hwOk (step hwOk (run hwOk (init (sampleConfig "none" 30)) [⟨1000, .setTarget .OPEN⟩])
        ⟨17000, .timeout 0⟩) [⟨50000, .timeout 0⟩, ⟨90000, .getTarget⟩]).currentDoorState =
      CurrentDoorState.OPEN :=
  ⟨by decide!,
   (open_stays_without_auto_close (sampleConfig "none" 30) hwOk [⟨1000, .setTarget .OPEN⟩]
      [⟨50000, .timeout 0⟩, ⟨90000, .getTarget⟩] ⟨0, .openingDone, 15000, 2000⟩ 17000 rfl
      (by decide!) rfl (by decide)).2.2.1⟩

/-- **C8.** The same scenario (normal open from the constructed `CLOSED` state, then only the
three timer firings, until the door is `CLOSED` again) on the same configuration except
`autoClosingMode`, on a driver that does not fail: both runs end `CLOSED` with no live
timer, and `executeGPIOActions` was called once under `self` and twice under `force`. -/
theorem self_one_pulse_fewer (cfg : Config) (t0 t1 t2 t3 : Int) :
    let evs : List Event :=
      [⟨t0, .setTarget .OPEN⟩, ⟨t1, .timeout 0⟩, ⟨t2, .timeout 1⟩, ⟨t3, .timeout 2⟩]
    let sF := run hwOk (init { cfg with autoClosingMode := "force" }) evs
    let sS := run hwOk (init { cfg with autoClosingMode := "self" }) evs
    sF.currentDoorState = CurrentDoorState.CLOSED ∧ sF.timers = [] ∧
    sS.currentDoorState = CurrentDoorState.CLOSED ∧ sS.timers = [] ∧
    sS.pulses = 1 ∧ sF.pulses = sS.pulses + 1 := by
  intro evs sF sS
  have hF := cycle_end (init { cfg with autoClosingMode := "force" }) t0 t1 t2 t3
    (inv_init _) rfl (by simp [init])
  have hS := cycle_end (init { cfg with autoClosingMode := "self" }) t0 t1 t2 t3
    (inv_init _) rfl (by simp [init])
  have pF : sF.pulses = 2 := by
    have h := hF.2.2
    simpa [init] using h
  have pS : sS.pulses = 1 := by
    have h := hS.2.2
    simpa [init] using h
  exact ⟨hF.1, hF.2.1, hS.1, hS.2.1, pS, by rw [pF, pS]⟩

/-- **C9.** When the auto-close timer fires in mode `self`, the door is set `CLOSING` (and the
target `CLOSED`), the fired timer is gone and the closing timer is scheduled at that instant
with the full `simulateTimeClosing` seconds; no pin operation is attempted, no pulse runs,
and `lastClosed` and `lastOpened` are what they were. -/
theorem self_auto_close_frame (hw : Nat → Bool) (s : Engine) (t : Timer) (now : Int)
    (hm : s.cfg.autoClosingMode = "self")
    (hf : s.timers.find? (fun x => x.handle == t.handle) = some t)
    (hcb : t.callback = .autoClose) :
    let s2 := step hw s ⟨now, .timeout t.handle⟩
    s2.currentDoorState = CurrentDoorState.CLOSING ∧
    s2.targetDoorState = TargetDoorState.CLOSED ∧
    s2.timers = s.timers.filter (fun x => x.handle != t.handle) ++
      [⟨s.nextHandle, .closingDone, s.cfg.simulateTimeClosing * 1000, now⟩] ∧
    s2.pinCalls = s.pinCalls ∧ s2.pinAttempts = s.pinAttempts ∧ s2.pulses = s.pulses ∧
    s2.lastClosed = s.lastClosed ∧ s2.lastOpened = s.lastOpened := by
  intro s2
  have hne : s.cfg.autoClosingMode ≠ "force" := by rw [hm]; decide
  have hs2 : s2 = simulateGarageDoorClosing s.cfg.simulateTimeClosing
      { s with clock := now, timers := s.timers.filter (fun x => x.handle != t.handle) } := by
    show step hw s ⟨now, .timeout t.handle⟩ = _
    simp [step, hf, hcb, runCallback, hne, settle]
  rw [hs2]
  simp [simulateGarageDoorClosing, setTimeout]

/-- A run on which C9 applies: mode `self`, open at 1 s, `OPEN` at 17 s, the auto-close timer
(handle 1) fires at 47 s: the closing timer is scheduled with 15000 ms and the pulse count
stays 1. -/
theorem self_auto_close_frame_witness :
    (step hwOk (run hwOk (init (sampleConfig "self" 30))
        [⟨1000, .setTarget .OPEN⟩, ⟨17000, .timeout 0⟩]) ⟨47000, .timeout 1⟩).currentDoorState =
      CurrentDoorState.CLOSING ∧
    (step hwOk (run hwOk (init (sampleConfig "self" 30))
        [⟨1000, .setTarget .OPEN⟩, ⟨17000, .timeout 0⟩]) ⟨47000, .timeout 1⟩).pulses =
      (run hwOk (init (sampleConfig "self" 30))
        [⟨1000, .setTarget .OPEN⟩, ⟨17000, .timeout 0⟩]).pulses := by
  have h := self_auto_close_frame hwOk (run hwOk (init (sampleConfig "self" 30))
    [⟨1000, .setTarget .OPEN⟩, ⟨17000, .timeout 0⟩]) ⟨1, .autoClose, 30000, 17000⟩ 47000
    (by decide!) (by decide!) rfl
  exact ⟨h.1, h.2.2.2.2.2.1⟩

/-- **C10.** The `get` handler of the target state reports `CLOSED` in place of the stored
target exactly when `autoClosingMode` is not `none`, the stored target is `OPEN` and
`now - lastOpened` is at least `autoClosingDelay` seconds (a comparison with an unset
`lastOpened` being false); otherwise it reports the stored target. The handler leaves the
whole state as it was. With `autoClosingDelay = 30` and mode `force`, a read 31 s after the
open command reports `CLOSED` while the stored target is `OPEN`, the door is `OPEN` and the
auto-close timer is still live. -/
theorem read_path_override (s : Engine) :
    ((getTargetDoorState s = TargetDoorState.CLOSED ∧
        s.targetDoorState ≠ TargetDoorState.CLOSED) ↔
      (s.cfg.autoClosingMode ≠ "none" ∧ s.targetDoorState = TargetDoorState.OPEN ∧
        ∃ lo, s.lastOpened = some lo ∧
          s.cfg.autoClosingDelay * 1000 ≤ ((newDate s - lo : Int) : ℚ))) ∧
    (¬ (s.cfg.autoClosingMode ≠ "none" ∧ s.targetDoorState = TargetDoorState.OPEN ∧
        ∃ lo, s.lastOpened = some lo ∧
          s.cfg.autoClosingDelay * 1000 ≤ ((newDate s - lo : Int) : ℚ)) →
      getTargetDoorState s = s.targetDoorState) ∧
    (onGet s).1 = getTargetDoorState s ∧ (onGet s).2 = s ∧
    (let r := run hwOk (init (sampleConfig "force" 30))
        [⟨1000, .setTarget .OPEN⟩, ⟨17000, .timeout 0⟩]
     (onGet { r with clock := (32000 : Int) }).1 = TargetDoorState.CLOSED ∧
     r.targetDoorState = TargetDoorState.OPEN ∧
     r.currentDoorState = CurrentDoorState.OPEN ∧
     r.timers = [⟨1, .autoClose, 30000, 17000⟩] ∧
     step hwOk r ⟨32000, .getTarget⟩ = { r with clock := (32000 : Int) }) := by
  have key : getTargetDoorState s = TargetDoorState.CLOSED ∧
        s.targetDoorState ≠ TargetDoorState.CLOSED ↔
      (s.cfg.autoClosingMode ≠ "none" ∧ s.targetDoorState = TargetDoorState.OPEN ∧
        ∃ lo, s.lastOpened = some lo ∧
          s.cfg.autoClosingDelay * 1000 ≤ ((newDate s - lo : Int) : ℚ)) := by
    unfold getTargetDoorState
    cases hlo : s.lastOpened with
    | none => cases htg : s.targetDoorState <;> simp
    | some lo =>
      cases htg : s.targetDoorState <;>
        by_cases hmd : s.cfg.autoClosingMode = "none" <;>
        by_cases hd : s.cfg.autoClosingDelay * 1000 ≤ ((newDate s - lo : Int) : ℚ) <;>
        simp [hmd, hd]
  refine ⟨key, ?_, rfl, rfl, ?_⟩
  · intro hno
    unfold getTargetDoorState
    split
    · rename_i hc
      exfalso
      apply hno
      refine ⟨hc.1, hc.2.1, ?_⟩
      cases hlo : s.lastOpened with
      | none => simp [hlo] at hc
      | some lo =>
        refine ⟨lo, rfl, ?_⟩
        simpa [hlo] using hc.2.2
    · rfl
  · decide!

/-! ## Unhandled requests and failing pin operations -/

theorem returned_error (r : Except Engine Engine) (h : returned r = false) :
    ∃ e, r = .error e := by
  cases r with
  | error e => exact ⟨e, rfl⟩
  | ok a => simp [returned] at h

theorem same_reset_more (s1 s3 : Engine) (h : SameEngine (resetActionsQueue s1) s3) :
    s3.targetDoorState = s1.targetDoorState ∧ s3.currentTimeOuts = s1.currentTimeOuts ∧
    s3.nextHandle = s1.nextHandle ∧ s3.currentDoorState = s1.currentDoorState ∧
    s3.lastOpened = s1.lastOpened ∧ s3.lastClosed = s1.lastClosed := by
  have e := resetActionsQueue_eq s1
  refine ⟨?_, ?_, ?_, ?_, ?_, ?_⟩
  · rw [h.targetDoorState, e]
  · rw [h.currentTimeOuts, e]
  · rw [h.nextHandle, e]
  · rw [h.currentDoorState, e]
  · rw [h.lastOpened, e]
  · rw [h.lastClosed, e]

/-- What an aborted `openGarageDoor` leaves, on a state that satisfies the invariant. -/
theorem openGarageDoor_abort (hw : Nat → Bool) (force : Bool) (s e : Engine) (hinv : Inv s)
    (h : openGarageDoor hw force s = .error e) :
    e.currentDoorState = s.currentDoorState ∧ e.timers = [] ∧
    e.nextHandle = s.nextHandle ∧ e.currentTimeOuts = s.currentTimeOuts ∧
    e.targetDoorState = s.targetDoorState := by
  have hs := openGarageDoor_error hw force s e h
  have hf := same_reset_facts s _ e hinv hs rfl rfl rfl rfl
  obtain ⟨m1, m2, m3, -, -, -⟩ := same_reset_more _ e hs
  exact ⟨hf.2.2, hf.1, m3, m2, m1⟩

/-- What an aborted `closeGarageDoor` leaves, on a state that satisfies the invariant. -/
theorem closeGarageDoor_abort (hw : Nat → Bool) (force : Bool) (s e : Engine) (hinv : Inv s)
    (h : closeGarageDoor hw force s = .error e) :
    e.currentDoorState = s.currentDoorState ∧ e.timers = [] ∧
    e.nextHandle = s.nextHandle ∧ e.currentTimeOuts = s.currentTimeOuts ∧
    e.targetDoorState = s.targetDoorState := by
  have hs := closeGarageDoor_error hw force s e h
  have hf := same_reset_facts s _ e hinv hs rfl rfl rfl rfl
  obtain ⟨m1, m2, m3, -, -, -⟩ := same_reset_more _ e hs
  exact ⟨hf.2.2, hf.1, m3, m2, m1⟩

theorem onSet_abort (hw : Nat → Bool) (v : TargetDoorState) (s e : Engine) (hinv : Inv s)
    (h : onSet hw v s = .error e) :
    e.currentDoorState = s.currentDoorState ∧ e.timers = [] ∧
    e.nextHandle = s.nextHandle ∧ e.currentTimeOuts = s.currentTimeOuts ∧
    e.targetDoorState = s.targetDoorState := by
  cases v with
  | OPEN =>
    cases hcur : s.currentDoorState <;> simp only [onSet, hcur] at h <;>
      first
        | exact hcur ▸ openGarageDoor_abort hw _ s e hinv h
        | exact absurd h (by simp)
  | CLOSED =>
    cases hcur : s.currentDoorState <;> simp only [onSet, hcur] at h <;>
      first
        | exact hcur ▸ closeGarageDoor_abort hw _ s e hinv h
        | exact absurd h (by simp)

/-- **C11.** An open request while the door is `OPENING` and a close request while it is
`CLOSING` change nothing in the engine: the `set` handler returns (it only calls
`callback`) in the state it was entered in, and after the turn the door state, `lastOpened`,
`lastClosed`, the live timers, the tracked handles, the pin log, the number of attempted
pin operations and the pulse count are what they were. -/
theorem unhandled_request_is_noop (hw : Nat → Bool) (s : Engine) (value : TargetDoorState)
    (now : Int)
    (h : (value = TargetDoorState.OPEN ∧ s.currentDoorState = CurrentDoorState.OPENING) ∨
         (value = TargetDoorState.CLOSED ∧ s.currentDoorState = CurrentDoorState.CLOSING)) :
    let s2 := step hw s ⟨now, .setTarget value⟩
    onSet hw value { s with clock := now } = .ok { s with clock := now } ∧
    s2.currentDoorState = s.currentDoorState ∧
    s2.lastOpened = s.lastOpened ∧ s2.lastClosed = s.lastClosed ∧
    s2.timers = s.timers ∧ s2.currentTimeOuts = s.currentTimeOuts ∧
    s2.pinCalls = s.pinCalls ∧ s2.pinAttempts = s.pinAttempts ∧ s2.pulses = s.pulses := by
  intro s2
  have hon : onSet hw value { s with clock := now } = .ok { s with clock := now } := by
    rcases h with ⟨rfl, hc⟩ | ⟨rfl, hc⟩ <;> simp only [onSet, hc]
  have hs2 : s2 = { s with clock := now, targetDoorState := value } := by
    show step hw s ⟨now, .setTarget value⟩ = _
    simp only [step, hon, storeTarget]
  rw [hs2]
  exact ⟨hon, rfl, rfl, rfl, rfl, rfl, rfl, rfl, rfl⟩

/-- A run on which C11 applies: an open at 1 s, a second open request at 5 s while the door
is `OPENING`. The opening timer scheduled by the first request is still the live timer and
one pulse ran. -/
theorem unhandled_request_is_noop_witness :
    (run hwOk (init (sampleConfig "none" 30)) [⟨1000, .setTarget .OPEN⟩]).currentDoorState =
      CurrentDoorState.OPENING ∧
    (step hwOk (run hwOk (init (sampleConfig "none" 30)) [⟨1000, .setTarget .OPEN⟩])
      ⟨5000, .setTarget .OPEN⟩).timers =
      (run hwOk (init (sampleConfig "none" 30)) [⟨1000, .setTarget .OPEN⟩]).timers ∧
    (step hwOk (run hwOk (init (sampleConfig "none" 30)) [⟨1000, .setTarget .OPEN⟩])
      ⟨5000, .setTarget .OPEN⟩).pulses = 1 := by
  have h := unhandled_request_is_noop hwOk
    (run hwOk (init (sampleConfig "none" 30)) [⟨1000, .setTarget .OPEN⟩]) .OPEN 5000
    (Or.inl ⟨rfl, by decide!⟩)
  refine ⟨by decide!, h.2.2.2.2.1, ?_⟩
  rw [h.2.2.2.2.2.2.2.2]
  decide!

/-! ## The pin log and the clock of a command that returns -/

theorem callAction_ok (hw : Nat → Bool) (s s2 : Engine) (a : Action)
    (h : callAction hw s a = .ok s2) :
    s2.cfg = s.cfg ∧
    s2.pinCalls = s.pinCalls ++ [⟨a.type, s.cfg.doorSwitchPin, a.value⟩] ∧
    s2.clock = s.clock + s.cfg.GPIOActionDelay * 1000 := by
  unfold callAction at h
  by_cases hf : hw s.pinAttempts = true
  · simp [hf] at h
  · simp [hf] at h
    subst h
    exact ⟨rfl, rfl, rfl⟩

theorem foldlM_callAction_ok (hw : Nat → Bool) (as : List Action) :
    ∀ (s s2 : Engine), as.foldlM (callAction hw) s = .ok s2 →
      s2.pinCalls = s.pinCalls ++
        as.map (fun a => ({ type := a.type, pin := s.cfg.doorSwitchPin, value := a.value } :
          PinCall)) ∧
      s2.clock = s.clock + as.length * (s.cfg.GPIOActionDelay * 1000) := by
  induction as with
  | nil =>
    intro s s2 h
    simp [List.foldlM, pure, Except.pure] at h
    subst h
    simp
  | cons a as ih =>
    intro s s2 h
    rw [List.foldlM_cons] at h
    cases hc : callAction hw s a with
    | error e =>
      rw [hc] at h
      simp [bind, Except.bind] at h
    | ok s1 =>
      rw [hc] at h
      simp only [bind, Except.bind] at h
      obtain ⟨c1, c2, c3⟩ := callAction_ok hw s s1 a hc
      obtain ⟨i1, i2⟩ := ih s1 s2 h
      refine ⟨?_, ?_⟩
      · rw [i1, c2, c1]
        simp
      · rw [i2, c3, c1, List.length_cons]
        push_cast
        ring

theorem executeGPIOActions_ok (hw : Nat → Bool) (s s2 : Engine)
    (h : executeGPIOActions hw s = .ok s2) :
    s2.pinCalls = s.pinCalls ++ pulseCalls s.cfg ∧ s2.clock = s.clock + pulseTime s.cfg := by
  unfold executeGPIOActions at h
  exact foldlM_callAction_ok hw _ { s with pulses := s.pulses + 1 } s2 h

theorem secondPulse_ok (hw : Nat → Bool) (force : Bool) (s s2 : Engine)
    (h : (if force then executeGPIOActions hw s else .ok s) = .ok s2) :
    s2.pinCalls = s.pinCalls ++ (if force then pulseCalls s.cfg else []) ∧
    s2.clock = s.clock + (if force then pulseTime s.cfg else 0) := by
  cases force with
  | true => simpa using executeGPIOActions_ok hw s s2 (by simpa using h)
  | false =>
    simp at h
    subst h
    simp

/-- The driver side of an `openGarageDoor` that returns: the pulses it ran and the time
for which they blocked. Every live timer it leaves on a state with the invariant was armed
when it returned. -/
theorem openGarageDoor_ok_driver (hw : Nat → Bool) (force : Bool) (s s2 : Engine)
    (h : openGarageDoor hw force s = .ok s2) :
    s2.pinCalls = s.pinCalls ++ pulseCalls s.cfg ++ (if force then pulseCalls s.cfg else []) ∧
    s2.clock = s.clock + pulseTime s.cfg + (if force then pulseTime s.cfg else 0) ∧
    (Inv s → ∀ t ∈ s2.timers, t.armedAt = s2.clock) := by
  have h0 := h
  unfold openGarageDoor at h
  simp only at h
  cases h1 : executeGPIOActions hw (resetActionsQueue { s with lastOpened := some (newDate s) }) with
  | error e =>
    rw [h1] at h
    simp [Except.bind] at h
  | ok a =>
    rw [h1] at h
    simp only [Except.bind] at h
    have ha := executeGPIOActions_ok hw _ a h1
    have hac := (executeGPIOActions_same hw _ a (Or.inl h1)).1.cfg
    rw [resetActionsQueue_eq] at ha hac
    simp only at ha hac
    cases h2 : (if force then executeGPIOActions hw a else .ok a) with
    | error e =>
      rw [h2] at h
      simp at h
    | ok b =>
      rw [h2] at h
      simp only [Except.ok.injEq] at h
      have hb := secondPulse_ok hw force a b h2
      rw [hac, ha.1, ha.2] at hb
      refine ⟨?_, ?_, ?_⟩
      · rw [← h]
        simpa [simulateGarageDoorOpening, setTimeout] using hb.1
      · rw [← h]
        simpa [simulateGarageDoorOpening, setTimeout] using hb.2
      · intro hinv t ht
        obtain ⟨s3, hs, -, rfl⟩ := openGarageDoor_ok hw force s s2 h0
        have hf := same_reset_facts s _ s3 hinv hs rfl rfl rfl rfl
        simp only [simulateGarageDoorOpening, setTimeout, hf.1, List.nil_append,
          List.mem_singleton] at ht
        rw [ht]
        rfl

/-- The driver side of a `closeGarageDoor` that returns. -/
theorem closeGarageDoor_ok_driver (hw : Nat → Bool) (force : Bool) (s s2 : Engine)
    (h : closeGarageDoor hw force s = .ok s2) :
    s2.pinCalls = s.pinCalls ++ pulseCalls s.cfg ++ (if force then pulseCalls s.cfg else []) ∧
    s2.clock = s.clock + pulseTime s.cfg + (if force then pulseTime s.cfg else 0) ∧
    (Inv s → ∀ t ∈ s2.timers, t.armedAt = s2.clock) := by
  have h0 := h
  unfold closeGarageDoor at h
  simp only at h
  cases h1 : executeGPIOActions hw (resetActionsQueue { s with lastClosed := some (newDate s) }) with
  | error e =>
    rw [h1] at h
    simp [Except.bind] at h
  | ok a =>
    rw [h1] at h
    simp only [Except.bind] at h
    have ha := executeGPIOActions_ok hw _ a h1
    have hac := (executeGPIOActions_same hw _ a (Or.inl h1)).1.cfg
    rw [resetActionsQueue_eq] at ha hac
    simp only at ha hac
    cases h2 : (if force then executeGPIOActions hw a else .ok a) with
    | error e =>
      rw [h2] at h
      simp at h
    | ok b =>
      rw [h2] at h
      simp only [Except.ok.injEq] at h
      have hb := secondPulse_ok hw force a b h2
      rw [hac, ha.1, ha.2] at hb
      refine ⟨?_, ?_, ?_⟩
      · rw [← h]
        simpa [simulateGarageDoorClosing, setTimeout] using hb.1
      · rw [← h]
        simpa [simulateGarageDoorClosing, setTimeout] using hb.2
      · intro hinv t ht
        obtain ⟨s3, hs, -, rfl⟩ := closeGarageDoor_ok hw force s s2 h0
        have hf := same_reset_facts s _ s3 hinv hs rfl rfl rfl rfl
        simp only [simulateGarageDoorClosing, setTimeout, hf.1, List.nil_append,
          List.mem_singleton] at ht
        rw [ht]
        rfl

theorem open_command_driver (hw : Nat → Bool) (force : Bool) (s : Engine) (now : Int)
    (hf : (force = false ∧ (s.currentDoorState = CurrentDoorState.CLOSED ∨
            s.currentDoorState = CurrentDoorState.OPEN)) ∨
          (force = true ∧ s.currentDoorState = CurrentDoorState.CLOSING))
    (hret : returned (onSet hw .OPEN { s with clock := now }) = true) :
    (step hw s ⟨now, .setTarget .OPEN⟩).pulses = s.pulses + (if force then 2 else 1) ∧
    (step hw s ⟨now, .setTarget .OPEN⟩).pinCalls =
      s.pinCalls ++ pulseCalls s.cfg ++ (if force then pulseCalls s.cfg else []) ∧
    (step hw s ⟨now, .setTarget .OPEN⟩).clock =
      now + pulseTime s.cfg + (if force then pulseTime s.cfg else 0) := by
  obtain ⟨a, ha⟩ := returned_ok _ hret
  have hstep : step hw s ⟨now, .setTarget .OPEN⟩ = { a with targetDoorState := .OPEN } := by
    simp only [step, ha, storeTarget]
  rw [onSet_open hw force { s with clock := now } hf] at ha
  obtain ⟨s3, -, hp, rfl⟩ := openGarageDoor_ok hw force _ a ha
  obtain ⟨d1, d2, -⟩ := openGarageDoor_ok_driver hw force _ _ ha
  rw [hstep]
  exact ⟨hp, d1, d2⟩

theorem close_command_driver (hw : Nat → Bool) (force : Bool) (s : Engine) (now : Int)
    (hf : (force = false ∧ (s.currentDoorState = CurrentDoorState.OPEN ∨
            s.currentDoorState = CurrentDoorState.CLOSED)) ∨
          (force = true ∧ s.currentDoorState = CurrentDoorState.OPENING))
    (hret : returned (onSet hw .CLOSED { s with clock := now }) = true) :
    (step hw s ⟨now, .setTarget .CLOSED⟩).pulses = s.pulses + (if force then 2 else 1) ∧
    (step hw s ⟨now, .setTarget .CLOSED⟩).pinCalls =
      s.pinCalls ++ pulseCalls s.cfg ++ (if force then pulseCalls s.cfg else []) ∧
    (step hw s ⟨now, .setTarget .CLOSED⟩).clock =
      now + pulseTime s.cfg + (if force then pulseTime s.cfg else 0) := by
  obtain ⟨a, ha⟩ := returned_ok _ hret
  have hstep : step hw s ⟨now, .setTarget .CLOSED⟩ = { a with targetDoorState := .CLOSED } := by
    simp only [step, ha, storeTarget]
  rw [onSet_close hw force { s with clock := now } hf] at ha
  obtain ⟨s3, -, hp, rfl⟩ := closeGarageDoor_ok hw force _ a ha
  obtain ⟨d1, d2, -⟩ := closeGarageDoor_ok_driver hw force _ _ ha
  rw [hstep]
  exact ⟨hp, d1, d2⟩

/-- **C12.** Pulse count per command. A set-target request that the table handles and that
returns runs `executeGPIOActions` once when it is a normal open (door `CLOSED` or `OPEN`) or
a normal close (door `OPEN` or `CLOSED`), and twice when it is a forced reopen (door
`CLOSING`) or a forced reclose (door `OPENING`); the pin operations it adds to the log are
the configured actions, in order, on the configured pin, once resp. twice. -/
theorem pulse_count_per_command (hw : Nat → Bool) (s : Engine) (value : TargetDoorState)
    (now : Int)
    (hin : inTable value s.currentDoorState = true)
    (hret : returned (onSet hw value { s with clock := now }) = true) :
    let s2 := step hw s ⟨now, .setTarget value⟩
    (isForced value s.currentDoorState = false →
      s2.pulses = s.pulses + 1 ∧ s2.pinCalls = s.pinCalls ++ pulseCalls s.cfg) ∧
    (isForced value s.currentDoorState = true →
      s2.pulses = s.pulses + 2 ∧
      s2.pinCalls = s.pinCalls ++ pulseCalls s.cfg ++ pulseCalls s.cfg) := by
  intro s2
  cases value with
  | OPEN =>
    cases hcur : s.currentDoorState <;> rw [hcur] at hin <;>
      simp only [inTable, Bool.false_eq_true] at hin
    · have h := open_command_driver hw false s now (Or.inl ⟨rfl, Or.inr hcur⟩) hret
      simp only [isForced, Bool.false_eq_true, if_false, List.append_nil] at h ⊢
      exact ⟨fun _ => ⟨h.1, h.2.1⟩, fun hh => absurd hh (by simp)⟩
    · have h := open_command_driver hw false s now (Or.inl ⟨rfl, Or.inl hcur⟩) hret
      simp only [isForced, Bool.false_eq_true, if_false, List.append_nil] at h ⊢
      exact ⟨fun _ => ⟨h.1, h.2.1⟩, fun hh => absurd hh (by simp)⟩
    · have h := open_command_driver hw true s now (Or.inr ⟨rfl, hcur⟩) hret
      simp only [isForced, if_true] at h ⊢
      exact ⟨fun hh => absurd hh (by simp), fun _ => ⟨h.1, h.2.1⟩⟩
  | CLOSED =>
    cases hcur : s.currentDoorState <;> rw [hcur] at hin <;>
      simp only [inTable, Bool.false_eq_true] at hin
    · have h := close_command_driver hw false s now (Or.inl ⟨rfl, Or.inl hcur⟩) hret
      simp only [isForced, Bool.false_eq_true, if_false, List.append_nil] at h ⊢
      exact ⟨fun _ => ⟨h.1, h.2.1⟩, fun hh => absurd hh (by simp)⟩
    · have h := close_command_driver hw false s now (Or.inl ⟨rfl, Or.inr hcur⟩) hret
      simp only [isForced, Bool.false_eq_true, if_false, List.append_nil] at h ⊢
      exact ⟨fun _ => ⟨h.1, h.2.1⟩, fun hh => absurd hh (by simp)⟩
    · have h := close_command_driver hw true s now (Or.inr ⟨rfl, hcur⟩) hret
      simp only [isForced, if_true] at h ⊢
      exact ⟨fun hh => absurd hh (by simp), fun _ => ⟨h.1, h.2.1⟩⟩

/-- A run on which C12 applies: the open from the constructed state writes the two
configured levels to pin 12; the close six seconds later, a forced reclose, writes them
twice more. -/
theorem pulse_count_per_command_witness :
    (step hwOk (init (sampleConfig "none" 30)) ⟨1000, .setTarget .OPEN⟩).pinCalls =
      [⟨.write, 12, 1⟩, ⟨.write, 12, 0⟩] ∧
    (step hwOk (step hwOk (init (sampleConfig "none" 30)) ⟨1000, .setTarget .OPEN⟩)
      ⟨7000, .setTarget .CLOSED⟩).pulses =
      (step hwOk (init (sampleConfig "none" 30)) ⟨1000, .setTarget .OPEN⟩).pulses + 2 :=
  ⟨((pulse_count_per_command hwOk (init (sampleConfig "none" 30)) .OPEN 1000
      (by decide!) (by decide!)).1 (by decide!)).2,
   ((pulse_count_per_command hwOk
      (step hwOk (init (sampleConfig "none" 30)) ⟨1000, .setTarget .OPEN⟩) .CLOSED 7000
      (by decide!) (by decide!)).2 (by decide!)).1⟩

theorem callAction_ok_attempts (hw : Nat → Bool) (s s2 : Engine) (a : Action)
    (h : callAction hw s a = .ok s2) :
    hw s.pinAttempts = false ∧ s2.pinAttempts = s.pinAttempts + 1 := by
  unfold callAction at h
  by_cases hf : hw s.pinAttempts = true
  · simp [hf] at h
  · simp [hf] at h
    subst h
    exact ⟨by simpa using hf, rfl⟩

/-- A run of the action loop that returns attempted one operation per action, and none of
them failed. -/
theorem foldlM_callAction_ok_attempts (hw : Nat → Bool) (as : List Action) :
    ∀ (s s2 : Engine), as.foldlM (callAction hw) s = .ok s2 →
      s2.pinAttempts = s.pinAttempts + as.length ∧
      ∀ i, i < as.length → hw (s.pinAttempts + i) = false := by
  induction as with
  | nil =>
    intro s s2 h
    simp [List.foldlM, pure, Except.pure] at h
    subst h
    simp
  | cons a as ih =>
    intro s s2 h
    rw [List.foldlM_cons] at h
    cases hc : callAction hw s a with
    | error e =>
      rw [hc] at h
      simp [bind, Except.bind] at h
    | ok s1 =>
      rw [hc] at h
      simp only [bind, Except.bind] at h
      obtain ⟨c1, c2⟩ := callAction_ok_attempts hw s s1 a hc
      obtain ⟨i1, i2⟩ := ih s1 s2 h
      refine ⟨?_, ?_⟩
      · rw [i1, c2, List.length_cons]
        omega
      · intro i hi
        cases i with
        | zero => exact c1
        | succ j =>
          have := i2 j (by simpa using hi)
          rw [c2] at this
          rw [show s.pinAttempts + (j + 1) = s.pinAttempts + 1 + j by omega]
          exact this

theorem executeGPIOActions_ok_attempts (hw : Nat → Bool) (s s2 : Engine)
    (h : executeGPIOActions hw s = .ok s2) :
    s2.pinAttempts = s.pinAttempts + s.cfg.GPIOOpenActions.length ∧
    ∀ i, i < s.cfg.GPIOOpenActions.length → hw (s.pinAttempts + i) = false := by
  unfold executeGPIOActions at h
  exact foldlM_callAction_ok_attempts hw _ { s with pulses := s.pulses + 1 } s2 h

/-- A command that returns met no failing pin operation: none of the operations of its one
pulse, or of its two pulses when forced, failed. The statement is for both methods, which
differ in nothing that the driver sees. -/
theorem command_ok_attempts (hw : Nat → Bool) (force : Bool) (s s1 : Engine)
    (r : Except Engine Engine)
    (hs1 : s1.cfg = s.cfg ∧ s1.pinAttempts = s.pinAttempts)
    (hr : returned r = true)
    (hshape : ∀ a, executeGPIOActions hw s1 = .error a → returned r = false)
    (hshape2 : ∀ a b, executeGPIOActions hw s1 = .ok a → force = true →
      executeGPIOActions hw a = .error b → returned r = false) :
    ∀ i, i < (if force then 2 else 1) * s.cfg.GPIOOpenActions.length →
      hw (s.pinAttempts + i) = false := by
  cases h1 : executeGPIOActions hw s1 with
  | error e =>
    rw [hshape e h1] at hr
    cases hr
  | ok a =>
    obtain ⟨p1, p2⟩ := executeGPIOActions_ok_attempts hw s1 a h1
    rw [hs1.1, hs1.2] at p1 p2
    cases force with
    | false =>
      intro i hi
      exact p2 i (by simpa using hi)
    | true =>
      cases h2 : executeGPIOActions hw a with
      | error e =>
        rw [hshape2 a e h1 rfl h2] at hr
        cases hr
      | ok b =>
        obtain ⟨-, q2⟩ := executeGPIOActions_ok_attempts hw a b h2
        have hac : a.cfg = s.cfg :=
          ((executeGPIOActions_same hw s1 a (Or.inl h1)).1.cfg).trans hs1.1
        rw [hac, p1] at q2
        intro i hi
        simp only [if_true] at hi
        by_cases hlt : i < s.cfg.GPIOOpenActions.length
        · exact p2 i hlt
        · have := q2 (i - s.cfg.GPIOOpenActions.length) (by omega)
          rw [show s.pinAttempts + s.cfg.GPIOOpenActions.length +
            (i - s.cfg.GPIOOpenActions.length) = s.pinAttempts + i by omega] at this
          exact this

theorem openGarageDoor_ok_attempts (hw : Nat → Bool) (force : Bool) (s : Engine)
    (hr : returned (openGarageDoor hw force s) = true) :
    ∀ i, i < (if force then 2 else 1) * s.cfg.GPIOOpenActions.length →
      hw (s.pinAttempts + i) = false := by
  apply command_ok_attempts hw force s
    (resetActionsQueue { s with lastOpened := some (newDate s) }) _ _ hr
  · intro a ha
    simp [openGarageDoor, ha, Except.bind, returned]
  · intro a b ha hf hb
    simp [openGarageDoor, ha, hf, hb, Except.bind, returned]
  · rw [resetActionsQueue_eq]
    exact ⟨rfl, rfl⟩

theorem closeGarageDoor_ok_attempts (hw : Nat → Bool) (force : Bool) (s : Engine)
    (hr : returned (closeGarageDoor hw force s) = true) :
    ∀ i, i < (if force then 2 else 1) * s.cfg.GPIOOpenActions.length →
      hw (s.pinAttempts + i) = false := by
  apply command_ok_attempts hw force s
    (resetActionsQueue { s with lastClosed := some (newDate s) }) _ _ hr
  · intro a ha
    simp [closeGarageDoor, ha, Except.bind, returned]
  · intro a b ha hf hb
    simp [closeGarageDoor, ha, hf, hb, Except.bind, returned]
  · rw [resetActionsQueue_eq]
    exact ⟨rfl, rfl⟩

/-- **C13.** A failing pin operation. On every reachable state, when one of the pin
operations of the pulse of `openGarageDoor` or `closeGarageDoor` (one pulse, two when
forced) fails, the call is left by the exception; and when the call is left by the
exception, the door state is what it was before the call, no handle was issued and no timer
is live: the pending ones were cleared before the pulse and none was scheduled. A
set-target request that aborts this way leaves the stored target as it was, too. -/
theorem pin_failure_aborts (cfg : Config) (hw : Nat → Bool) (es : List Event) (now : Int)
    (force : Bool) (value : TargetDoorState) (i : Nat) :
    let s0 := run hw (init cfg) es
    let s : Engine := { s0 with clock := now }
    (i < (if force then 2 else 1) * cfg.GPIOOpenActions.length →
      hw (s0.pinAttempts + i) = true →
      returned (openGarageDoor hw force s) = false ∧
      returned (closeGarageDoor hw force s) = false) ∧
    (returned (openGarageDoor hw force s) = false →
      (settle (openGarageDoor hw force s)).currentDoorState = s0.currentDoorState ∧
      (settle (openGarageDoor hw force s)).timers = [] ∧
      (settle (openGarageDoor hw force s)).nextHandle = s0.nextHandle) ∧
    (returned (closeGarageDoor hw force s) = false →
      (settle (closeGarageDoor hw force s)).currentDoorState = s0.currentDoorState ∧
      (settle (closeGarageDoor hw force s)).timers = [] ∧
      (settle (closeGarageDoor hw force s)).nextHandle = s0.nextHandle) ∧
    (returned (onSet hw value s) = false →
      (step hw s0 ⟨now, .setTarget value⟩).currentDoorState = s0.currentDoorState ∧
      (step hw s0 ⟨now, .setTarget value⟩).timers = [] ∧
      (step hw s0 ⟨now, .setTarget value⟩).nextHandle = s0.nextHandle ∧
      (step hw s0 ⟨now, .setTarget value⟩).targetDoorState = s0.targetDoorState) := by
  intro s0 s
  have hinv : Inv s := inv_clock _ _ (inv_run hw es _ (inv_init cfg))
  have hcfg : s.cfg = cfg := run_cfg hw cfg es
  refine ⟨?_, ?_, ?_, ?_⟩
  · intro hi hf
    constructor
    · cases hr : returned (openGarageDoor hw force s) with
      | false => rfl
      | true =>
        have := openGarageDoor_ok_attempts hw force s hr i (by rw [hcfg]; exact hi)
        rw [show s.pinAttempts = s0.pinAttempts from rfl, hf] at this
        cases this
    · cases hr : returned (closeGarageDoor hw force s) with
      | false => rfl
      | true =>
        have := closeGarageDoor_ok_attempts hw force s hr i (by rw [hcfg]; exact hi)
        rw [show s.pinAttempts = s0.pinAttempts from rfl, hf] at this
        cases this
  · intro h
    obtain ⟨e, he⟩ := returned_error _ h
    obtain ⟨a, b, c, -, -⟩ := openGarageDoor_abort hw force s e hinv he
    rw [he]
    exact ⟨a, b, c⟩
  · intro h
    obtain ⟨e, he⟩ := returned_error _ h
    obtain ⟨a, b, c, -, -⟩ := closeGarageDoor_abort hw force s e hinv he
    rw [he]
    exact ⟨a, b, c⟩
  · intro h
    obtain ⟨e, he⟩ := returned_error _ h
    obtain ⟨a, b, c, -, d⟩ := onSet_abort hw value s e hinv he
    have hstep : step hw s0 ⟨now, .setTarget value⟩ = e := by
      simp only [step, he, storeTarget, s]
    rw [hstep]
    exact ⟨a, b, c, d⟩

/-- A run on which C13 applies: the driver fails on the third pin operation, the first of
the close at 7 s. The door stays `OPENING`, the opening timer is gone and nothing is
scheduled. -/
theorem pin_failure_aborts_witness :
    (run (fun n => n == 2) (init (sampleConfig "none" 30))
        [⟨1000, .setTarget .OPEN⟩]).timers.map (fun t => t.callback) =
      [Callback.openingDone] ∧
    (step (fun n => n == 2)
        (run (fun n => n == 2) (init (sampleConfig "none" 30)) [⟨1000, .setTarget .OPEN⟩])
        ⟨7000, .setTarget .CLOSED⟩).currentDoorState = CurrentDoorState.OPENING ∧
    (step (fun n => n == 2)
        (run (fun n => n == 2) (init (sampleConfig "none" 30)) [⟨1000, .setTarget .OPEN⟩])
        ⟨7000, .setTarget .CLOSED⟩).timers = [] := by
  have h := (pin_failure_aborts (sampleConfig "none" 30) (fun n => n == 2)
    [⟨1000, .setTarget .OPEN⟩] 7000 true .CLOSED 0).2.2.2
    (by
      have h0 := ((pin_failure_aborts (sampleConfig "none" 30) (fun n => n == 2)
        [⟨1000, .setTarget .OPEN⟩] 7000 true .CLOSED 0).1 (by decide!) (by decide!)).2
      rw [onSet_close (fun n => n == 2) true _ (Or.inr ⟨rfl, by decide!⟩)]
      exact h0)
  refine ⟨by decide!, ?_, h.2.1⟩
  rw [h.1]
  decide!

/-! ## Construction -/

theorem construct_some (insp : Inspector) (raw : RawConfig) (e : Engine)
    (h : construct insp raw = some e) :
    ∃ actions, e = init
      { simulateTimeOpening := orNumber raw.simulateTimeOpening 15
        autoClosingDelay := orNumber raw.autoClosingDelay 30
        simulateTimeClosing := orNumber raw.simulateTimeClosing 15
        autoClosingMode := orString raw.autoClosingMode "none"
        doorSwitchPin := orPin raw.doorSwitchPin 12
        GPIOActionDelay := orNumber raw.GPIOActionDelay (1 / 2)
        GPIOOpenActions := actions } := by
  unfold construct sanitizeConfig at h
  simp only at h
  cases ha : insp.actions raw.GPIOOpenActions with
  | none => simp [ha] at h
  | some l =>
    simp only [ha, Option.some.injEq] at h
    exact ⟨l, h.symm⟩

theorem orNumber_pos (x : Option ℚ) (d : ℚ) (hd : 0 < d) (hx : ∀ v, x = some v → 0 ≤ v) :
    0 < orNumber x d := by
  cases x with
  | none => exact hd
  | some v =>
    by_cases h0 : v = 0
    · simp [orNumber, h0, hd]
    · simp only [orNumber, h0, if_false]
      exact lt_of_le_of_ne (hx v rfl) (Ne.symm h0)

/-- **C14.** What the code does where the claim expects the default: the constructor keeps a
configured mode string whatever the library computes, since the result of the `sanitize`
call is dropped. For the mode `auto` the constructed engine has `autoClosingMode = auto`
although the sanitization would yield `none`; reaching `OPEN` then arms the auto-close
timer, and a read 31 s after the open reports `CLOSED` for a stored `OPEN`. -/
theorem invalid_mode_survives_construction :
    (∀ (insp : Inspector) (raw : RawConfig) (e : Engine), construct insp raw = some e →
      e.cfg.autoClosingMode = orString raw.autoClosingMode "none") ∧
    sampleInspector.sanitizeString ["force", "self", "none"] "none" "auto" = "none" ∧
    (construct sampleInspector (sampleRaw (some "auto"))).map
      (fun e => e.cfg.autoClosingMode) = some "auto" ∧
    (construct sampleInspector (sampleRaw (some "auto"))).map
      (fun e => (run hwOk e [⟨1000, .setTarget .OPEN⟩, ⟨17000, .timeout 0⟩]).timers) =
      some [⟨1, .autoClose, 30000, 17000⟩] ∧
    (construct sampleInspector (sampleRaw (some "auto"))).map
      (fun e => ((run hwOk e [⟨1000, .setTarget .OPEN⟩, ⟨17000, .timeout 0⟩]).targetDoorState,
        getTargetDoorState
          { run hwOk e [⟨1000, .setTarget .OPEN⟩, ⟨17000, .timeout 0⟩] with
            clock := (32000 : Int) })) =
      some (TargetDoorState.OPEN, TargetDoorState.CLOSED) := by
  refine ⟨?_, by decide!, by decide!, by decide!, by decide!⟩
  intro insp raw e h
  obtain ⟨l, rfl⟩ := construct_some insp raw e h
  rfl

/-- **C18.** Division safety. When the configured `simulateTimeOpening` and
`simulateTimeClosing` are each missing or a non-negative number, the constructed engine has
both durations positive (a missing or zero value is replaced by 15), and so has every state
it reaches: the divisors of the forced-reopen and forced-reclose formulas are not zero. -/
theorem durations_positive (insp : Inspector) (raw : RawConfig) (e : Engine)
    (hw : Nat → Bool) (es : List Event)
    (h : construct insp raw = some e)
    (hO : ∀ v, raw.simulateTimeOpening = some v → 0 ≤ v)
    (hC : ∀ v, raw.simulateTimeClosing = some v → 0 ≤ v) :
    0 < e.cfg.simulateTimeOpening ∧ 0 < e.cfg.simulateTimeClosing ∧
    (raw.simulateTimeOpening = some 0 ∨ raw.simulateTimeOpening = none →
      e.cfg.simulateTimeOpening = 15) ∧
    (raw.simulateTimeClosing = some 0 ∨ raw.simulateTimeClosing = none →
      e.cfg.simulateTimeClosing = 15) ∧
    (run hw e es).cfg.simulateTimeOpening ≠ 0 ∧ (run hw e es).cfg.simulateTimeClosing ≠ 0 := by
  obtain ⟨l, rfl⟩ := construct_some insp raw e h
  have h1 : 0 < orNumber raw.simulateTimeOpening 15 := orNumber_pos _ _ (by norm_num) hO
  have h2 : 0 < orNumber raw.simulateTimeClosing 15 := orNumber_pos _ _ (by norm_num) hC
  have hc := (frame_run hw es (init
      { simulateTimeOpening := orNumber raw.simulateTimeOpening 15
        autoClosingDelay := orNumber raw.autoClosingDelay 30
        simulateTimeClosing := orNumber raw.simulateTimeClosing 15
        autoClosingMode := orString raw.autoClosingMode "none"
        doorSwitchPin := orPin raw.doorSwitchPin 12
        GPIOActionDelay := orNumber raw.GPIOActionDelay (1 / 2)
        GPIOOpenActions := l })).cfg
  refine ⟨h1, h2, ?_, ?_, ?_, ?_⟩
  · rintro (h0 | h0) <;> simp [init, h0, orNumber]
  · rintro (h0 | h0) <;> simp [init, h0, orNumber]
  · rw [hc]
    exact ne_of_gt h1
  · rw [hc]
    exact ne_of_gt h2

/-- A configuration on which C18 applies: `simulateTimeOpening = 0` and no
`simulateTimeClosing`; both durations of the constructed engine are 15. -/
theorem durations_positive_witness :
    construct sampleInspector { sampleRaw none with simulateTimeOpening := some 0 } =
      some (init (sampleConfig "none" 30)) ∧
    (init (sampleConfig "none" 30)).cfg.simulateTimeOpening = 15 ∧
    (0 : ℚ) < (init (sampleConfig "none" 30)).cfg.simulateTimeClosing := by
  have h := durations_positive sampleInspector
    { sampleRaw none with simulateTimeOpening := some 0 } (init (sampleConfig "none" 30))
    hwOk [] (by decide!)
    (fun v hv => by
      have e : v = 0 := (Option.some.inj hv).symm
      rw [e])
    (fun v hv => by cases hv)
  exact ⟨by decide!, h.2.2.1 (Or.inl rfl), h.2.1⟩

/-! ## The tracked handles -/

theorem tracked_push (cto : List Nat) (n : Nat) (h : cto = List.range n) :
    cto ++ [n] = List.range (n + 1) := by
  rw [h, List.range_succ]

theorem tracked_openGarageDoor (hw : Nat → Bool) (force : Bool) (s : Engine) (hinv : Inv s)
    (ht : Tracked s) : Tracked (settle (openGarageDoor hw force s)) := by
  cases h : openGarageDoor hw force s with
  | error e =>
    obtain ⟨-, -, c, d, -⟩ := openGarageDoor_abort hw force s e hinv h
    simp only [settle, Tracked, c, d]
    exact ht
  | ok a =>
    obtain ⟨-, -, -, -, -, -, h7, h8, -⟩ := openGarageDoor_ok_fields hw force s a hinv h
    simp only [settle, Tracked, h7, h8]
    exact tracked_push _ _ ht

theorem tracked_closeGarageDoor (hw : Nat → Bool) (force : Bool) (s : Engine) (hinv : Inv s)
    (ht : Tracked s) : Tracked (settle (closeGarageDoor hw force s)) := by
  cases h : closeGarageDoor hw force s with
  | error e =>
    obtain ⟨-, -, c, d, -⟩ := closeGarageDoor_abort hw force s e hinv h
    simp only [settle, Tracked, c, d]
    exact ht
  | ok a =>
    obtain ⟨-, -, -, -, -, -, h7, h8, -⟩ := closeGarageDoor_ok_fields hw force s a hinv h
    simp only [settle, Tracked, h7, h8]
    exact tracked_push _ _ ht

theorem tracked_onSet (hw : Nat → Bool) (v : TargetDoorState) (s : Engine) (hinv : Inv s)
    (ht : Tracked s) : Tracked (storeTarget v (onSet hw v s)) := by
  obtain ⟨-, -, e3, e4⟩ := storeTarget_fields v (onSet hw v s)
  have key : Tracked (settle (onSet hw v s)) := by
    cases v <;> cases hcur : s.currentDoorState <;> simp only [onSet, hcur] <;>
      first
        | exact tracked_openGarageDoor hw _ s hinv ht
        | exact tracked_closeGarageDoor hw _ s hinv ht
        | exact ht
  simp only [Tracked, e3, e4]
  exact key

theorem tracked_runCallback (hw : Nat → Bool) (cb : Callback) (s : Engine) (hinv : Inv s)
    (ht : Tracked s) : Tracked (settle (runCallback hw cb s)) := by
  cases cb with
  | openingDone =>
    by_cases hm : s.cfg.autoClosingMode = "none"
    · simp only [runCallback, hm, ne_eq, not_true_eq_false, if_false, settle]
      exact ht
    · simp only [runCallback, hm, ne_eq, not_false_eq_true, if_true, settle, setTimeout,
        Tracked]
      exact tracked_push _ _ ht
  | autoClose =>
    by_cases hm : s.cfg.autoClosingMode = "force"
    · simp only [runCallback, hm, if_true]
      exact tracked_closeGarageDoor hw false s hinv ht
    · simp only [runCallback, hm, if_false, settle, simulateGarageDoorClosing, setTimeout,
        Tracked]
      exact tracked_push _ _ ht
  | closingDone =>
    simp only [runCallback, settle]
    exact ht

theorem tracked_step (hw : Nat → Bool) (s : Engine) (e : Event) (hinv : Inv s)
    (ht : Tracked s) : Tracked (step hw s e) := by
  unfold step
  cases hr : e.req with
  | getTarget => exact ht
  | setTarget v => exact tracked_onSet hw v { s with clock := e.time } (inv_clock s _ hinv) ht
  | timeout h =>
    simp only
    cases hf : s.timers.find? (fun t => t.handle == h) with
    | none => exact ht
    | some t =>
      simp only
      rcases hinv.single with h0 | ⟨t0, h1, hp⟩
      · simp [h0] at hf
      · rw [h1] at hf
        obtain ⟨rfl, hnil⟩ := find_single t0 t h hf
        rw [h1, hnil]
        exact tracked_runCallback hw t.callback { s with clock := e.time, timers := [] }
          ⟨by simp, hinv.issued, Or.inl rfl, hinv.named⟩ ht

theorem tracked_run (hw : Nat → Bool) (es : List Event) :
    ∀ s : Engine, Inv s → Tracked s → Tracked (run hw s es) := by
  induction es with
  | nil => intro s _ h; exact h
  | cons e es ih =>
    intro s hinv h
    exact ih _ (inv_step hw s e hinv) (tracked_step hw s e hinv h)

/-- **C15**, as the claim states it, fails: after an open from the constructed state the
handle 0 has been issued, and when `resetActionsQueue` returns (as it does first thing in
the next command) handle 0 is still in `currentTimeOuts`, though no timer is live; after
one, two and three commands the collection holds one, two and three handles. -/
theorem tracked_handles_are_kept :
    (run hwOk (init (sampleConfig "none" 30)) [⟨1000, .setTarget .OPEN⟩]).nextHandle = 1 ∧
    0 ∈ (resetActionsQueue
      (run hwOk (init (sampleConfig "none" 30)) [⟨1000, .setTarget .OPEN⟩])).currentTimeOuts ∧
    (resetActionsQueue
      (run hwOk (init (sampleConfig "none" 30)) [⟨1000, .setTarget .OPEN⟩])).timers = [] ∧
    (run hwOk (init (sampleConfig "none" 30))
      [⟨1000, .setTarget .OPEN⟩]).currentTimeOuts = [0] ∧
    (run hwOk (init (sampleConfig "none" 30))
      [⟨1000, .setTarget .OPEN⟩, ⟨7000, .setTarget .CLOSED⟩]).currentTimeOuts = [0, 1] ∧
    (run hwOk (init (sampleConfig "none" 30))
      [⟨1000, .setTarget .OPEN⟩, ⟨7000, .setTarget .CLOSED⟩,
       ⟨9000, .setTarget .OPEN⟩]).currentTimeOuts = [0, 1, 2] := by
  decide!

/-- **C15**, amended. Every open or close command cancels all tracked timers before
scheduling: in every reachable state, when `resetActionsQueue` returns no timer is live, so
no timer issued before the command can fire. The handle collection is not emptied:
`resetActionsQueue` leaves `currentTimeOuts` as it was, and in every reachable state the
collection holds every handle issued since construction, in order, one per scheduled
timer. -/
theorem reset_cancels_and_keeps_handles (cfg : Config) (hw : Nat → Bool) (es : List Event) :
    let s := run hw (init cfg) es
    (resetActionsQueue s).timers = [] ∧
    (resetActionsQueue s).currentTimeOuts = s.currentTimeOuts ∧
    s.currentTimeOuts = List.range s.nextHandle ∧
    s.currentTimeOuts.length = s.nextHandle := by
  intro s
  have hinv : Inv s := inv_run hw es _ (inv_init cfg)
  have ht : Tracked s := tracked_run hw es _ (inv_init cfg) rfl
  refine ⟨resetActionsQueue_timers s hinv.tracked, by rw [resetActionsQueue_eq], ht, ?_⟩
  rw [ht, List.length_range]

/-! ## Timestamps -/

theorem toIntegerOrInfinity_int (n : Int) : toIntegerOrInfinity (n : ℚ) = n := by
  unfold toIntegerOrInfinity
  split <;> simp

theorem setSeconds_whole (t r : Int) :
    setSeconds t ((getSeconds t : ℚ) - (r : ℚ)) = t - r * 1000 := by
  unfold setSeconds
  have h : ((getSeconds t : ℚ) - (r : ℚ)) = ((getSeconds t - r : Int) : ℚ) := by push_cast; rfl
  rw [h, toIntegerOrInfinity_int]
  ring

/-- **C16.** What the code does where the claim expects an exact shift. `setSeconds`
truncates its argument, so the shift `setSeconds(getSeconds() - r)` is exact for every
whole `r`, and not for a fractional one: with both durations 15 s, an open at 1.0 s and a
close at 7.5 s give the remaining duration `r = 6.5` s (the closing timer gets 6500 ms),
and the stored `lastClosed` is 500 ms, seven seconds before the request, where the claim
has `7500 - 6500 = 1000` ms. -/
theorem fractional_shift_is_truncated :
    (∀ t r : Int, setSeconds t ((getSeconds t : ℚ) - (r : ℚ)) = t - r * 1000) ∧
    (run hwOk (init (sampleConfig "none" 30))
      [⟨1000, .setTarget .OPEN⟩, ⟨7500, .setTarget .CLOSED⟩]).timers.map
        (fun t => (t.callback, t.delay)) = [(Callback.closingDone, 6500)] ∧
    (run hwOk (init (sampleConfig "none" 30))
      [⟨1000, .setTarget .OPEN⟩, ⟨7500, .setTarget .CLOSED⟩]).lastClosed = some 500 ∧
    (run hwOk (init (sampleConfig "none" 30))
      [⟨1000, .setTarget .OPEN⟩, ⟨7500, .setTarget .CLOSED⟩]).lastClosed ≠
      some (7500 - 6500) ∧
    closingCorrection (sampleConfig "none" 30) true 7500 (some 1000) = (13 / 2, 500) :=
  ⟨setSeconds_whole, by decide!, by decide!, by decide!, by decide!⟩

/-! ## Elapsed time at an interruption -/

/-- The state a normal (unforced) command leaves when it returns, on a state with the
invariant: the motion is under way, the stamp is the time of the request, and the one live
timer is the completion timer with the full nominal duration, armed when the pulse was
over. -/
theorem normal_command_state (hw : Nat → Bool) (s : Engine) (value : TargetDoorState)
    (t0 : Int) (hinv : Inv s)
    (hn : isForced value s.currentDoorState = false)
    (hin : inTable value s.currentDoorState = true)
    (hret : returned (onSet hw value { s with clock := t0 }) = true) :
    (step hw s ⟨t0, .setTarget value⟩).currentDoorState = motionOf value ∧
    stampOf (step hw s ⟨t0, .setTarget value⟩) value = some t0 ∧
    (step hw s ⟨t0, .setTarget value⟩).targetDoorState = value ∧
    (step hw s ⟨t0, .setTarget value⟩).cfg = s.cfg ∧
    (step hw s ⟨t0, .setTarget value⟩).timers =
      [⟨s.nextHandle, completionOf value, nominalDuration s.cfg value * 1000,
        t0 + pulseTime s.cfg⟩] := by
  obtain ⟨a, ha⟩ := returned_ok _ hret
  have hstep : step hw s ⟨t0, .setTarget value⟩ = { a with targetDoorState := value } := by
    simp only [step, ha, storeTarget]
  have hk := inv_clock s t0 hinv
  cases value with
  | OPEN =>
    have hf : (false = false ∧ (s.currentDoorState = CurrentDoorState.CLOSED ∨
            s.currentDoorState = CurrentDoorState.OPEN)) ∨
          (false = true ∧ s.currentDoorState = CurrentDoorState.CLOSING) := by
      cases hcur : s.currentDoorState <;> rw [hcur] at hn hin <;>
        simp_all [isForced, inTable]
    rw [onSet_open hw false { s with clock := t0 } hf] at ha
    obtain ⟨h1, h2, -, -, h5, -, -, -, k, h9⟩ := openGarageDoor_ok_fields hw false _ a hk ha
    obtain ⟨-, d2, d3⟩ := openGarageDoor_ok_driver hw false _ a ha
    rw [newDate_clock, openingCorrection_normal] at h5 h9
    have hk2 : k = (t0 : ℚ) + pulseTime s.cfg := by
      have := d3 hk ⟨s.nextHandle, .openingDone, s.cfg.simulateTimeOpening * 1000, k⟩
        (by rw [h9]; simp)
      simp only at this
      rw [this, d2]
      simp
    rw [hstep]
    refine ⟨h1, h5, rfl, h2, ?_⟩
    show a.timers = _
    rw [h9, hk2]
    rfl
  | CLOSED =>
    have hf : (false = false ∧ (s.currentDoorState = CurrentDoorState.OPEN ∨
            s.currentDoorState = CurrentDoorState.CLOSED)) ∨
          (false = true ∧ s.currentDoorState = CurrentDoorState.OPENING) := by
      cases hcur : s.currentDoorState <;> rw [hcur] at hn hin <;>
        simp_all [isForced, inTable]
    rw [onSet_close hw false { s with clock := t0 } hf] at ha
    obtain ⟨h1, h2, -, -, h5, -, -, -, k, h9⟩ := closeGarageDoor_ok_fields hw false _ a hk ha
    obtain ⟨-, d2, d3⟩ := closeGarageDoor_ok_driver hw false _ a ha
    rw [newDate_clock, closingCorrection_normal] at h5 h9
    have hk2 : k = (t0 : ℚ) + pulseTime s.cfg := by
      have := d3 hk ⟨s.nextHandle, .closingDone, s.cfg.simulateTimeClosing * 1000, k⟩
        (by rw [h9]; simp)
      simp only at this
      rw [this, d2]
      simp
    rw [hstep]
    refine ⟨h1, h5, rfl, h2, ?_⟩
    show a.timers = _
    rw [h9, hk2]
    rfl

/-- **C17.** What the code does where the claim expects the estimate. Default durations
(15 s), pulse of two actions. First run: an open at 1 s, a forced reclose at 13 s (remaining
duration 12 s, `lastClosed` shifted back to 1 s, closing timer armed at 15 s and due at
27 s), and an open request at 20 s. The door is `CLOSING` and its completion timer is live
and not yet due; the turn of the request runs the forced path (two pulses), measures 19 s
from `lastClosed`, which is not less than `simulateTimeClosing`, makes no estimate, leaves
`lastOpened` unshifted and schedules the full 15 s. Second run, mode `self`: after the
auto-close of 47 s the door is `CLOSING` with its timer due at 62 s and `lastClosed` unset;
the open request at 50 s runs the forced path and schedules the full 15 s, too. -/
theorem elapsed_reaches_nominal_while_pending :
    ((run hwOk (init (sampleConfig "none" 30))
        [⟨1000, .setTarget .OPEN⟩, ⟨13000, .setTarget .CLOSED⟩]).currentDoorState =
        CurrentDoorState.CLOSING ∧
      (run hwOk (init (sampleConfig "none" 30))
        [⟨1000, .setTarget .OPEN⟩, ⟨13000, .setTarget .CLOSED⟩]).timers =
        [⟨1, .closingDone, 12000, 15000⟩] ∧
      (20000 : ℚ) < Timer.due ⟨1, .closingDone, 12000, 15000⟩ ∧
      (run hwOk (init (sampleConfig "none" 30))
        [⟨1000, .setTarget .OPEN⟩, ⟨13000, .setTarget .CLOSED⟩]).lastClosed = some 1000 ∧
      ¬ (((20000 - 1000 : Int) : ℚ) / 1000 <
        (sampleConfig "none" 30).simulateTimeClosing) ∧
      openingCorrection (sampleConfig "none" 30) true 20000 (some 1000) = (15, 20000) ∧
      (step hwOk (run hwOk (init (sampleConfig "none" 30))
        [⟨1000, .setTarget .OPEN⟩, ⟨13000, .setTarget .CLOSED⟩])
        ⟨20000, .setTarget .OPEN⟩).currentDoorState = CurrentDoorState.OPENING ∧
      (step hwOk (run hwOk (init (sampleConfig "none" 30))
        [⟨1000, .setTarget .OPEN⟩, ⟨13000, .setTarget .CLOSED⟩])
        ⟨20000, .setTarget .OPEN⟩).pulses =
        (run hwOk (init (sampleConfig "none" 30))
          [⟨1000, .setTarget .OPEN⟩, ⟨13000, .setTarget .CLOSED⟩]).pulses + 2 ∧
      (step hwOk (run hwOk (init (sampleConfig "none" 30))
        [⟨1000, .setTarget .OPEN⟩, ⟨13000, .setTarget .CLOSED⟩])
        ⟨20000, .setTarget .OPEN⟩).lastOpened = some 20000 ∧
      (step hwOk (run hwOk (init (sampleConfig "none" 30))
        [⟨1000, .setTarget .OPEN⟩, ⟨13000, .setTarget .CLOSED⟩])
        ⟨20000, .setTarget .OPEN⟩).timers = [⟨2, .openingDone, 15000, 22000⟩]) ∧
    ((run hwOk (init (sampleConfig "self" 30))
        [⟨1000, .setTarget .OPEN⟩, ⟨17000, .timeout 0⟩,
         ⟨47000, .timeout 1⟩]).currentDoorState = CurrentDoorState.CLOSING ∧
      (run hwOk (init (sampleConfig "self" 30))
        [⟨1000, .setTarget .OPEN⟩, ⟨17000, .timeout 0⟩, ⟨47000, .timeout 1⟩]).timers =
        [⟨2, .closingDone, 15000, 47000⟩] ∧
      (50000 : ℚ) < Timer.due ⟨2, .closingDone, 15000, 47000⟩ ∧
      (run hwOk (init (sampleConfig "self" 30))
        [⟨1000, .setTarget .OPEN⟩, ⟨17000, .timeout 0⟩, ⟨47000, .timeout 1⟩]).lastClosed =
        none ∧
      (step hwOk (run hwOk (init (sampleConfig "self" 30))
        [⟨1000, .setTarget .OPEN⟩, ⟨17000, .timeout 0⟩, ⟨47000, .timeout 1⟩])
        ⟨50000, .setTarget .OPEN⟩).pulses =
        (run hwOk (init (sampleConfig "self" 30))
          [⟨1000, .setTarget .OPEN⟩, ⟨17000, .timeout 0⟩, ⟨47000, .timeout 1⟩]).pulses + 2 ∧
      (step hwOk (run hwOk (init (sampleConfig "self" 30))
        [⟨1000, .setTarget .OPEN⟩, ⟨17000, .timeout 0⟩, ⟨47000, .timeout 1⟩])
        ⟨50000, .setTarget .OPEN⟩).timers = [⟨3, .openingDone, 15000, 52000⟩]) := by
  decide!

/-! ## The stored target while the door closes -/

theorem closingTarget_onSet (hw : Nat → Bool) (v : TargetDoorState) (s : Engine)
    (hinv : Inv s) (hj : ClosingTarget s) : ClosingTarget (storeTarget v (onSet hw v s)) := by
  cases hr : onSet hw v s with
  | error e =>
    obtain ⟨a, -, -, -, d⟩ := onSet_abort hw v s e hinv hr
    simp only [storeTarget, ClosingTarget, a, d]
    exact hj
  | ok a =>
    cases v with
    | CLOSED =>
      intro _
      rfl
    | OPEN =>
      intro hc
      exfalso
      have hc2 : a.currentDoorState = CurrentDoorState.CLOSING := hc
      cases hcur : s.currentDoorState <;> simp only [onSet, hcur] at hr
      · have h1 := (openGarageDoor_ok_fields hw false s a hinv hr).1
        rw [h1] at hc2
        cases hc2
      · have h1 := (openGarageDoor_ok_fields hw false s a hinv hr).1
        rw [h1] at hc2
        cases hc2
      · cases hr
        rw [hcur] at hc2
        cases hc2
      · have h1 := (openGarageDoor_ok_fields hw true s a hinv hr).1
        rw [h1] at hc2
        cases hc2
      · cases hr
        rw [hcur] at hc2
        cases hc2

theorem closingTarget_runCallback (hw : Nat → Bool) (cb : Callback) (s : Engine)
    (hinv : Inv s) (hj : ClosingTarget s) : ClosingTarget (settle (runCallback hw cb s)) := by
  cases cb with
  | openingDone =>
    by_cases hm : s.cfg.autoClosingMode = "none"
    · simp only [runCallback, hm, ne_eq, not_true_eq_false, if_false, settle]
      intro hc
      cases hc
    · simp only [runCallback, hm, ne_eq, not_false_eq_true, if_true, settle, setTimeout]
      intro hc
      cases hc
  | autoClose =>
    by_cases hm : s.cfg.autoClosingMode = "force"
    · simp only [runCallback, hm, if_true]
      cases hr : closeGarageDoor hw false s with
      | error e =>
        obtain ⟨a, -, -, -, d⟩ := closeGarageDoor_abort hw false s e hinv hr
        simp only [settle, ClosingTarget, a, d]
        exact hj
      | ok a =>
        intro _
        exact (closeGarageDoor_ok_fields hw false s a hinv hr).2.2.1
    · simp only [runCallback, hm, if_false, settle, simulateGarageDoorClosing, setTimeout]
      intro _
      rfl
  | closingDone =>
    simp only [runCallback, settle]
    intro hc
    cases hc

theorem closingTarget_step (hw : Nat → Bool) (s : Engine) (e : Event) (hinv : Inv s)
    (hj : ClosingTarget s) : ClosingTarget (step hw s e) := by
  unfold step
  cases hr : e.req with
  | getTarget => exact hj
  | setTarget v =>
    exact closingTarget_onSet hw v { s with clock := e.time } (inv_clock s _ hinv) hj
  | timeout h =>
    simp only
    cases hf : s.timers.find? (fun t => t.handle == h) with
    | none => exact hj
    | some t =>
      simp only
      rcases hinv.single with h0 | ⟨t0, h1, hp⟩
      · simp [h0] at hf
      · rw [h1] at hf
        obtain ⟨rfl, hnil⟩ := find_single t0 t h hf
        rw [h1, hnil]
        exact closingTarget_runCallback hw t.callback { s with clock := e.time, timers := [] }
          ⟨by simp, hinv.issued, Or.inl rfl, hinv.named⟩ hj

theorem closingTarget_run (hw : Nat → Bool) (es : List Event) :
    ∀ s : Engine, Inv s → ClosingTarget s → ClosingTarget (run hw s es) := by
  induction es with
  | nil => intro s _ h; exact h
  | cons e es ih =>
    intro s hinv h
    exact ih _ (inv_step hw s e hinv) (closingTarget_step hw s e hinv h)

/-- **C19.** Along every run, a turn that leaves the door `CLOSING` (an external close, a
forced reclose, a `force` or a `self` auto-close; also a turn that finds it `CLOSING` and
keeps it) leaves the stored target `CLOSED`; so whenever the door is `CLOSING` the stored
target is `CLOSED`, and when the closing timer fires both the door and the stored target are
`CLOSED`. -/
theorem closing_has_target_closed (cfg : Config) (hw : Nat → Bool) (es : List Event)
    (e : Event) (t : Timer) (now : Int) :
    let s := run hw (init cfg) es
    (s.currentDoorState = CurrentDoorState.CLOSING →
      s.targetDoorState = TargetDoorState.CLOSED) ∧
    ((step hw s e).currentDoorState = CurrentDoorState.CLOSING →
      (step hw s e).targetDoorState = TargetDoorState.CLOSED) ∧
    (t ∈ s.timers → t.callback = Callback.closingDone →
      (step hw s ⟨now, .timeout t.handle⟩).currentDoorState = CurrentDoorState.CLOSED ∧
      (step hw s ⟨now, .timeout t.handle⟩).targetDoorState = TargetDoorState.CLOSED) := by
  intro s
  have hinv : Inv s := inv_run hw es _ (inv_init cfg)
  have hj : ClosingTarget s := closingTarget_run hw es _ (inv_init cfg) (by intro h; cases h)
  refine ⟨hj, closingTarget_step hw s e hinv hj, ?_⟩
  intro ht hcb
  rcases hinv.single with h0 | ⟨t0, h1, hp⟩
  · rw [h0] at ht
    simp at ht
  · rw [h1, List.mem_singleton] at ht
    subst ht
    rw [fire_closingDone hw s t now h1 hcb]
    refine ⟨rfl, ?_⟩
    rw [hcb] at hp
    exact hj hp.symm

/-- A run on which C19 applies: mode `self`, the door opened, the auto-close fired at 47 s
(door `CLOSING`, target `CLOSED`) and the closing timer fires at 62 s. -/
theorem closing_has_target_closed_witness :
    (run hwOk (init (sampleConfig "self" 30))
      [⟨1000, .setTarget .OPEN⟩, ⟨17000, .timeout 0⟩,
       ⟨47000, .timeout 1⟩]).currentDoorState = CurrentDoorState.CLOSING ∧
    (run hwOk (init (sampleConfig "self" 30))
      [⟨1000, .setTarget .OPEN⟩, ⟨17000, .timeout 0⟩,
       ⟨47000, .timeout 1⟩]).targetDoorState = TargetDoorState.CLOSED ∧
    (step hwOk (run hwOk (init (sampleConfig "self" 30))
      [⟨1000, .setTarget .OPEN⟩, ⟨17000, .timeout 0⟩, ⟨47000, .timeout 1⟩])
      ⟨62000, .timeout 2⟩).targetDoorState = TargetDoorState.CLOSED := by
  have h := closing_has_target_closed (sampleConfig "self" 30) hwOk
    [⟨1000, .setTarget .OPEN⟩, ⟨17000, .timeout 0⟩, ⟨47000, .timeout 1⟩]
    ⟨0, .getTarget⟩ ⟨2, .closingDone, 15000, 47000⟩ 62000
  have hc : (run hwOk (init (sampleConfig "self" 30))
      [⟨1000, .setTarget .OPEN⟩, ⟨17000, .timeout 0⟩,
       ⟨47000, .timeout 1⟩]).currentDoorState = CurrentDoorState.CLOSING := by decide!
  exact ⟨hc, h.1 hc, (h.2.2 (by decide!) rfl).2⟩

/-! ## The override and the auto-close -/

theorem pulseTime_nonneg (cfg : Config) (h : 0 ≤ cfg.GPIOActionDelay) : 0 ≤ pulseTime cfg := by
  unfold pulseTime
  apply mul_nonneg
  · exact Nat.cast_nonneg _
  · exact mul_nonneg h (by norm_num)

theorem getTargetDoorState_open (s : Engine) (lo : Int)
    (hm : s.cfg.autoClosingMode ≠ "none")
    (ht : s.targetDoorState = TargetDoorState.OPEN) (hl : s.lastOpened = some lo) :
    getTargetDoorState s = TargetDoorState.CLOSED ↔
      s.cfg.autoClosingDelay * 1000 ≤ ((newDate s - lo : Int) : ℚ) := by
  unfold getTargetDoorState
  by_cases hd : s.cfg.autoClosingDelay * 1000 ≤ ((newDate s - lo : Int) : ℚ)
  · simp [hm, ht, hl, hd]
  · simp [hm, ht, hl, hd]

/-- **C20.** The override is counted from the open command, the auto-close from `OPEN`. On
every reachable state with `autoClosingMode` not `none`, after a normal open accepted at
`t0`: a read at `t` reports `CLOSED` exactly when `t - t0` is at least `autoClosingDelay`
seconds; so for `t0 + autoClosingDelay ≤ t < t0 + simulateTimeOpening` the read reports
`CLOSED` while the stored target is `OPEN`, the door is `OPENING` and its opening timer is
not yet due; and when the opening timer fires, at any `t1`, the auto-close timer is armed
with `autoClosingDelay` seconds from `t1`. -/
theorem override_precedes_auto_close (cfg : Config) (hw : Nat → Bool) (es : List Event)
    (t0 t t1 : Int)
    (hcur : (run hw (init cfg) es).currentDoorState = CurrentDoorState.CLOSED ∨
            (run hw (init cfg) es).currentDoorState = CurrentDoorState.OPEN)
    (hret : returned (onSet hw .OPEN { run hw (init cfg) es with clock := t0 }) = true)
    (hm : cfg.autoClosingMode ≠ "none")
    (hd : 0 ≤ cfg.GPIOActionDelay)
    (hlate : cfg.autoClosingDelay * 1000 ≤ ((t - t0 : Int) : ℚ))
    (hearly : (t : ℚ) < t0 + cfg.simulateTimeOpening * 1000) :
    let s1 := step hw (run hw (init cfg) es) ⟨t0, .setTarget .OPEN⟩
    let s2 := step hw s1 ⟨t1, .timeout (run hw (init cfg) es).nextHandle⟩
    s1.currentDoorState = CurrentDoorState.OPENING ∧
    s1.targetDoorState = TargetDoorState.OPEN ∧
    s1.lastOpened = some t0 ∧
    (∀ r : Int, getTargetDoorState { s1 with clock := r } = TargetDoorState.CLOSED ↔
      cfg.autoClosingDelay * 1000 ≤ ((r - t0 : Int) : ℚ)) ∧
    getTargetDoorState { s1 with clock := t } = TargetDoorState.CLOSED ∧
    (∃ tm, s1.timers = [tm] ∧ tm.callback = Callback.openingDone ∧ (t : ℚ) < tm.due) ∧
    s2.currentDoorState = CurrentDoorState.OPEN ∧
    (∃ tm, s2.timers = [tm] ∧ tm.callback = Callback.autoClose ∧
      tm.due = t1 + cfg.autoClosingDelay * 1000) := by
  intro s1 s2
  have hinv : Inv (run hw (init cfg) es) := inv_run hw es _ (inv_init cfg)
  have hcfg := run_cfg hw cfg es
  obtain ⟨a1, a2, a3, a4, a5⟩ := normal_command_state hw _ .OPEN t0 hinv
    (by rcases hcur with h | h <;> rw [h] <;> rfl)
    (by rcases hcur with h | h <;> rw [h] <;> rfl) hret
  have a2' : s1.lastOpened = some t0 := a2
  have c1 : s1.cfg = cfg := a4.trans hcfg
  have hread : ∀ r : Int, getTargetDoorState { s1 with clock := r } = TargetDoorState.CLOSED ↔
      cfg.autoClosingDelay * 1000 ≤ ((r - t0 : Int) : ℚ) := by
    intro r
    have h := getTargetDoorState_open { s1 with clock := (r : ℚ) } t0
      (by rw [show ({ s1 with clock := (r : ℚ) } : Engine).cfg = s1.cfg from rfl, c1]; exact hm)
      a3 a2'
    have e1 : ({ s1 with clock := (r : ℚ) } : Engine).cfg.autoClosingDelay =
        cfg.autoClosingDelay := by
      show s1.cfg.autoClosingDelay = _
      rw [c1]
    rw [e1, newDate_clock s1 r] at h
    exact h
  have hs2 : s2 = _ := fire_openingDone_arm hw s1 _ t1 a5 rfl (by rw [c1]; exact hm)
  refine ⟨a1, a3, a2', hread, (hread t).mpr hlate, ⟨_, a5, rfl, ?_⟩, by rw [hs2],
    ⟨_, by rw [hs2], rfl, ?_⟩⟩
  · simp only [Timer.due, nominalDuration, hcfg]
    have := pulseTime_nonneg cfg hd
    linarith
  · simp only [Timer.due, c1]

/-- The configuration and run that C20 asks for: mode `force`, `autoClosingDelay = 5` under
`simulateTimeOpening = 15`, an open at 1 s and a read at 7 s. The read reports `CLOSED`; the
door is `OPENING`, the stored target `OPEN`, the opening timer due at 17 s. -/
theorem override_precedes_auto_close_witness :
    (sampleConfig "force" 5).autoClosingMode ≠ "none" ∧
    (sampleConfig "force" 5).autoClosingDelay < (sampleConfig "force" 5).simulateTimeOpening ∧
    (∃ tm, (step hwOk (init (sampleConfig "force" 5)) ⟨1000, .setTarget .OPEN⟩).timers = [tm] ∧
      tm.callback = Callback.openingDone ∧ ((7000 : Int) : ℚ) < tm.due) ∧
    (step hwOk (init (sampleConfig "force" 5)) ⟨1000, .setTarget .OPEN⟩).currentDoorState =
      CurrentDoorState.OPENING ∧
    (step hwOk (init (sampleConfig "force" 5)) ⟨1000, .setTarget .OPEN⟩).targetDoorState =
      TargetDoorState.OPEN ∧
    getTargetDoorState
      { step hwOk (init (sampleConfig "force" 5)) ⟨1000, .setTarget .OPEN⟩ with
        clock := (7000 : Int) } = TargetDoorState.CLOSED := by
  have h := override_precedes_auto_close (sampleConfig "force" 5) hwOk [] 1000 7000 17000
    (Or.inl rfl) (by decide!) (by decide) (by decide!) (by decide!) (by decide!)
  exact ⟨by decide, by decide!, h.2.2.2.2.2.1, h.1, h.2.1, h.2.2.2.2.1⟩

end SimpleGarageDoorOpener
